import Mathlib

/-!
Verification development for the barq-hub LLM-gateway dispatch core.

The Rust source is embedded shallowly:

* `u64` counters are `Nat`; where the code actually performs machine
  arithmetic we apply an explicit `% 2^64` (`wrapAdd64`, `wrapSub64`).
* `chrono::DateTime<Utc>` is an `Int` of seconds wherever the code only
  compares instants and adds `chrono::Duration`s (quota tiers); for the cost
  ledger, which additionally observes the calendar day of month, a timestamp
  is abstracted by the pair of observations the code makes (`Instant`).
* `f64`/`f32` money, health-score and sampling fields are modelled as `Rat`:
  the embedded code only copies, adds and compares them.
* `HashMap` registries are association lists / lists of values; the list
  order stands for the map's iteration order, and `insert` replaces the
  entry with an equal key.
* Functions that are `async` and lock in Rust are plain state-passing
  functions here; fallible functions return `Except SynapseError`.
-/

namespace Synapse

/-! ### Small helpers: machine integers, comparators, substrings, assoc lists -/

/-- `2 ^ 64`, the modulus of `u64` arithmetic. -/
def u64Mod : Nat := 2 ^ 64

/-- `u64::MAX`. -/
def u64Max : Nat := 2 ^ 64 - 1

/-- Wrapping `u64` addition (`a + b` on `u64` values). -/
def wrapAdd64 (a b : Nat) : Nat := (a + b) % u64Mod

/-- Wrapping `u64` subtraction (`a - b` on `u64` values). -/
def wrapSub64 (a b : Nat) : Nat := (a + (u64Mod - b)) % u64Mod

/-- Rust `i32::cmp`. -/
def intCmp (a b : Int) : Ordering :=
  if a < b then .lt else if a = b then .eq else .gt

/-- Rust `u64::cmp`. -/
def natCmp (a b : Nat) : Ordering :=
  if a < b then .lt else if a = b then .eq else .gt

/-- Does `s` start with `pat`? (helper for Rust `str::contains`). -/
def charsStartWith : List Char → List Char → Bool
  | [], _ => true
  | _ :: _, [] => false
  | p :: ps, c :: cs => p == c && charsStartWith ps cs

/-- Does `s` contain `pat` as a contiguous substring? -/
def charsContain : List Char → List Char → Bool
  | [], pat => pat.isEmpty
  | c :: rest, pat => charsStartWith pat (c :: rest) || charsContain rest pat

/-- Rust `str::contains` for substring patterns. -/
def strContains (s pat : String) : Bool := charsContain s.data pat.data

/-- `HashMap::get` on an association-list model. -/
def lookupA {β : Type} : List (String × β) → String → Option β
  | [], _ => none
  | (k, v) :: rest, key => if k == key then some v else lookupA rest key

/-- `HashMap::insert`: replace the entry with an equal key, else add. -/
def insertA {β : Type} : List (String × β) → String → β → List (String × β)
  | [], key, v => [(key, v)]
  | (k, w) :: rest, key, v =>
    if k == key then (key, v) :: rest else (k, w) :: insertA rest key v

/-- `HashMap::remove` (the removed value is not needed by the embedded code). -/
def eraseA {β : Type} (l : List (String × β)) (key : String) : List (String × β) :=
  l.filter (fun p => !(p.1 == key))

/-! ### Quota periods and tiers (`account_manager.rs`) -/

/-- `QuotaPeriod`. -/
inductive QuotaPeriod
  | minute
  | hour
  | day
  | month
deriving DecidableEq

/-- `QuotaPeriod::duration`, in seconds (`chrono::Duration` holds seconds). -/
def QuotaPeriod.durationSecs : QuotaPeriod → Int
  | .minute => 60
  | .hour => 3600
  | .day => 86400
  | .month => 30 * 86400

/-- `QuotaTier`: one time-windowed usage budget. `period_start` is seconds. -/
structure QuotaTier where
  period : QuotaPeriod
  tokenLimit : Nat
  requestLimit : Option Nat
  tokensUsed : Nat
  requestsUsed : Nat
  periodStart : Int
deriving DecidableEq

/-- `QuotaTier::new` (usage zeroed, window starts now). -/
def QuotaTier.new (period : QuotaPeriod) (tokenLimit : Nat) (requestLimit : Option Nat)
    (now : Int) : QuotaTier :=
  { period := period, tokenLimit := tokenLimit, requestLimit := requestLimit,
    tokensUsed := 0, requestsUsed := 0, periodStart := now }

/-- `QuotaTier::is_period_expired`: `Utc::now() > period_start + duration`. -/
def QuotaTier.isPeriodExpired (now : Int) (t : QuotaTier) : Bool :=
  decide (now > t.periodStart + t.period.durationSecs)

/-- `QuotaTier::reset_if_expired`. -/
def QuotaTier.resetIfExpired (now : Int) (t : QuotaTier) : QuotaTier × Bool :=
  if t.isPeriodExpired now then
    ({ t with tokensUsed := 0, requestsUsed := 0, periodStart := now }, true)
  else (t, false)

/-- `QuotaTier::has_quota_available` (non-mutating). -/
def QuotaTier.hasQuotaAvailable (now : Int) (t : QuotaTier) : Bool :=
  if t.isPeriodExpired now then true
  else if t.tokensUsed ≥ t.tokenLimit then false
  else
    match t.requestLimit with
    | some reqLimit => if t.requestsUsed ≥ reqLimit then false else true
    | none => true

/-- `QuotaTier::has_quota` (mutating: resets first). -/
def QuotaTier.hasQuota (now : Int) (t : QuotaTier) : Bool × QuotaTier :=
  let t' := (t.resetIfExpired now).1
  (t'.hasQuotaAvailable now, t')

/-- `QuotaTier::record_usage`: lazy reset, then wrapping `u64` additions. -/
def QuotaTier.recordUsage (now : Int) (tokens requests : Nat) (t : QuotaTier) : QuotaTier :=
  let t' := (t.resetIfExpired now).1
  { t' with tokensUsed := wrapAdd64 t'.tokensUsed tokens,
            requestsUsed := wrapAdd64 t'.requestsUsed requests }

/-- `QuotaTier::remaining_tokens`: guarded `u64` subtraction. -/
def QuotaTier.remainingTokens (t : QuotaTier) : Nat :=
  if t.tokensUsed ≥ t.tokenLimit then 0 else wrapSub64 t.tokenLimit t.tokensUsed

/-! ### Provider accounts (`account_manager.rs`) -/

/-- `ModelCapability` (from `types.rs`). -/
inductive ModelCapability
  | llm
  | embedding
deriving DecidableEq

/-- `ProviderModel` (from `types.rs`). -/
structure ProviderModel where
  id : String
  name : String
  capabilities : List ModelCapability
  inputTokenCost : Option Rat
  outputTokenCost : Option Rat
deriving DecidableEq

/-- `AccountConfig`, the tagged credential union. -/
inductive AccountConfig
  | apiKey (key : String) (organizationId : Option String) (customEndpoint : Option String)
  | azure (endpoint deploymentName apiVersion key : String)
  | aws (region accessKeyId secretAccessKey : String)
  | vectorDb (url : String) (key : Option String) (collectionName : Option String)
deriving DecidableEq

/-- `ProviderAccount`. `quotas` is the `HashMap<QuotaPeriod, QuotaTier>` as an
association list; timestamps are seconds. -/
structure ProviderAccount where
  id : String
  name : String
  providerId : String
  config : AccountConfig
  enabled : Bool
  isDefault : Bool
  priority : Int
  quotas : List (QuotaPeriod × QuotaTier)
  models : List ProviderModel
  createdAt : Int
  updatedAt : Int
deriving DecidableEq

/-- Keyed insert into the quota map (replace the tier of an equal period). -/
def insertQuota : List (QuotaPeriod × QuotaTier) → QuotaPeriod → QuotaTier →
    List (QuotaPeriod × QuotaTier)
  | [], p, t => [(p, t)]
  | (q, u) :: rest, p, t =>
    if q = p then (p, t) :: rest else (q, u) :: insertQuota rest p t

/-- `ProviderAccount::set_quota`. -/
def ProviderAccount.setQuota (now : Int) (a : ProviderAccount) (period : QuotaPeriod)
    (tokenLimit : Nat) (requestLimit : Option Nat) : ProviderAccount :=
  { a with quotas := insertQuota a.quotas period (QuotaTier.new period tokenLimit requestLimit now),
           updatedAt := now }

/-- `ProviderAccount::remove_quota`. -/
def ProviderAccount.removeQuota (now : Int) (a : ProviderAccount) (period : QuotaPeriod) :
    ProviderAccount :=
  { a with quotas := a.quotas.filter (fun pt => !(pt.1 = period)), updatedAt := now }

/-- `ProviderAccount::has_quota_available` (non-mutating; empty map = unlimited). -/
def ProviderAccount.hasQuotaAvailable (now : Int) (a : ProviderAccount) : Bool :=
  if a.quotas.isEmpty then true
  else a.quotas.all (fun pt => pt.2.hasQuotaAvailable now)

/-- The traversal inside `ProviderAccount::has_quota`: each visited tier is
lazily reset; the walk stops at the first tier without quota, leaving later
tiers untouched. -/
def hasQuotaWalk (now : Int) : List (QuotaPeriod × QuotaTier) →
    Bool × List (QuotaPeriod × QuotaTier)
  | [] => (true, [])
  | (p, t) :: rest =>
    let t' := (t.resetIfExpired now).1
    if t'.hasQuotaAvailable now then
      let (b, rest') := hasQuotaWalk now rest
      (b, (p, t') :: rest')
    else (false, (p, t') :: rest)

/-- `ProviderAccount::has_quota` (mutating). -/
def ProviderAccount.hasQuotaM (now : Int) (a : ProviderAccount) : Bool × ProviderAccount :=
  if a.quotas.isEmpty then (true, a)
  else
    let (b, qs) := hasQuotaWalk now a.quotas
    (b, { a with quotas := qs })

/-- `ProviderAccount::record_usage`: debit every tier. -/
def ProviderAccount.recordUsage (now : Int) (tokens requests : Nat) (a : ProviderAccount) :
    ProviderAccount :=
  { a with quotas := a.quotas.map (fun pt => (pt.1, pt.2.recordUsage now tokens requests)),
           updatedAt := now }

/-- `ProviderAccount::min_remaining_tokens`. -/
def ProviderAccount.minRemainingTokens (a : ProviderAccount) : Option Nat :=
  (a.quotas.map (fun pt => pt.2.remainingTokens)).min?

/-! ### The account manager (`account_manager.rs`) -/

/-- The mutable state of `ProviderAccountManager`: the `accounts` map (listed
in iteration order) and the `original_accounts` return-to-primary table.
The static `providers` registry is read-only boot data not touched by the
operations embedded here. -/
structure ManagerState where
  accounts : List ProviderAccount
  originalDefaults : List (String × String)
deriving DecidableEq

/-- `ProviderAccountManager::new()` as far as mutable state is concerned. -/
def emptyManager : ManagerState := { accounts := [], originalDefaults := [] }

/-- `accounts.get(...)` by account id. -/
def findById (l : List ProviderAccount) (aid : String) : Option ProviderAccount :=
  l.find? (fun a => a.id == aid)

/-- `accounts.insert(account.id, account)`: replace the entry with the same
id, else add. -/
def insertById : List ProviderAccount → ProviderAccount → List ProviderAccount
  | [], a => [a]
  | b :: rest, a => if b.id == a.id then a :: rest else b :: insertById rest a

/-! #### Error taxonomy (`error.rs`) -/

/-- `ProviderError`. -/
inductive ProviderError
  | requestFailed (msg : String)
  | invalidResponse (msg : String)
  | notFound (providerName : String)
  | rateLimited
  | authFailed
  | timeout
  | network (msg : String)
deriving DecidableEq

/-- `RoutingError`. -/
inductive RoutingError
  | noProvidersAvailable
  | invalidProviderIndex (idx : Nat)
  | providerNotFound (providerName : String)
  | noProviderForModel (model : String)
  | allProvidersFailed
deriving DecidableEq

/-- `CostError`. -/
inductive CostError
  | budgetExceeded (userId : String)
  | invalidCalculation
  | missingPricing (providerName : String)
deriving DecidableEq

/-- `SynapseError` (the `sqlx`-backed `Database` variant is folded into the
string-carrying `databaseError`, as the embedded code never constructs it). -/
inductive SynapseError
  | provider (e : ProviderError)
  | routing (e : RoutingError)
  | cost (e : CostError)
  | validation (msg : String)
  | notFound (msg : String)
  | databaseError (msg : String)
  | config (msg : String)
  | internal (msg : String)
deriving DecidableEq

/-! #### Manager operations -/

/-- `ProviderAccountManager::add_account`. -/
def addAccount (s : ManagerState) (acct : ProviderAccount) :
    Except SynapseError ProviderAccount × ManagerState :=
  let isFirst := !(s.accounts.any (fun b => b.providerId == acct.providerId))
  let acct' := if isFirst then { acct with isDefault := true } else acct
  (.ok acct', { s with accounts := insertById s.accounts acct' })

/-- `ProviderAccountManager::get_accounts` (enabled accounts of one provider). -/
def getAccounts (s : ManagerState) (pid : String) : List ProviderAccount :=
  s.accounts.filter (fun a => a.providerId == pid && a.enabled)

/-- The candidate tuple `(id, is_default, priority, min_remaining_tokens, has_quota_available)`
collected by `get_available_account`. -/
structure Cand where
  id : String
  isDef : Bool
  prio : Int
  toks : Nat
  hq : Bool
deriving DecidableEq

/-- Build one candidate tuple. -/
def candOf (now : Int) (a : ProviderAccount) : Cand :=
  { id := a.id, isDef := a.isDefault, prio := a.priority,
    toks := a.minRemainingTokens.getD u64Max, hq := a.hasQuotaAvailable now }

/-- The comparator passed to `candidates.sort_by`. -/
def candCmp (a b : Cand) : Ordering :=
  match a.isDef, b.isDef with
  | true, false => .lt
  | false, true => .gt
  | _, _ => (intCmp a.prio b.prio).then (natCmp b.toks a.toks)

/-- Rust's stable `sort_by` with `candCmp`, as a stable insertion sort under
the induced total preorder. -/
def sortCands (l : List Cand) : List Cand :=
  List.insertionSort (fun a b => candCmp a b ≠ Ordering.gt) l

/-- The walk over the sorted candidates plus the `original_default`
book-keeping at the end of `get_available_account`. -/
def pickScan (s : ManagerState) (pid : String) (sorted : List Cand) :
    Option ProviderAccount × ManagerState :=
  match sorted.find? (fun c => c.hq) with
  | none => (none, s)
  | some c =>
    let s' :=
      if !c.isDef && (lookupA s.originalDefaults pid).isNone then
        match sorted.find? (fun d => d.isDef) with
        | some d => { s with originalDefaults := insertA s.originalDefaults pid d.id }
        | none => s
      else s
    (findById s'.accounts c.id, s')

/-- `ProviderAccountManager::get_available_account`. -/
def getAvailableAccount (now : Int) (s : ManagerState) (pid : String) :
    Option ProviderAccount × ManagerState :=
  let cands := (s.accounts.filter (fun a => a.providerId == pid && a.enabled)).map (candOf now)
  if cands.isEmpty then (none, s)
  else
    let sorted := sortCands cands
    match lookupA s.originalDefaults pid with
    | some oid =>
      match findById s.accounts oid with
      | some acc =>
        let (b, acc') := acc.hasQuotaM now
        let s₁ := { s with accounts := insertById s.accounts acc' }
        if b then (some acc', { s₁ with originalDefaults := eraseA s₁.originalDefaults pid })
        else pickScan s₁ pid sorted
      | none => pickScan s pid sorted
    | none => pickScan s pid sorted

/-- `ProviderAccountManager::record_usage`. -/
def recordUsageMgr (now : Int) (s : ManagerState) (aid : String) (tokens requests : Nat) :
    ManagerState :=
  match findById s.accounts aid with
  | some a => { s with accounts := insertById s.accounts (a.recordUsage now tokens requests) }
  | none => s

/-- `QuotaUpdate`. -/
structure QuotaUpdate where
  period : QuotaPeriod
  tokenLimit : Nat
  requestLimit : Option Nat
deriving DecidableEq

/-- `AccountUpdate`. -/
structure AccountUpdate where
  name : Option String
  enabled : Option Bool
  priority : Option Int
  models : Option (List ProviderModel)
  quotas : Option (List QuotaUpdate)
  removeQuotas : Option (List QuotaPeriod)
deriving DecidableEq

/-- The field patching inside `ProviderAccountManager::update_account`. -/
def applyUpdate (now : Int) (a : ProviderAccount) (u : AccountUpdate) : ProviderAccount :=
  let a₁ := match u.name with | some n => { a with name := n } | none => a
  let a₂ := match u.enabled with | some e => { a₁ with enabled := e } | none => a₁
  let a₃ := match u.priority with | some p => { a₂ with priority := p } | none => a₂
  let a₄ := match u.models with | some m => { a₃ with models := m } | none => a₃
  let a₅ := match u.quotas with
    | some qs =>
      qs.foldl (fun (acc : ProviderAccount) q =>
        acc.setQuota now q.period q.tokenLimit q.requestLimit) a₄
    | none => a₄
  let a₆ := match u.removeQuotas with
    | some ps => ps.foldl (fun (acc : ProviderAccount) p => acc.removeQuota now p) a₅
    | none => a₅
  { a₆ with updatedAt := now }

/-- `ProviderAccountManager::update_account`. -/
def updateAccount (now : Int) (s : ManagerState) (aid : String) (u : AccountUpdate) :
    Except SynapseError ProviderAccount × ManagerState :=
  match findById s.accounts aid with
  | none => (.error (.notFound "Account not found"), s)
  | some a =>
    let a' := applyUpdate now a u
    (.ok a', { s with accounts := insertById s.accounts a' })

/-- `ProviderAccountManager::delete_account`. -/
def deleteAccount (s : ManagerState) (aid : String) : Bool × ManagerState :=
  (s.accounts.any (fun a => a.id == aid),
   { s with accounts := s.accounts.filter (fun a => !(a.id == aid)) })

/-- `ProviderAccountManager::set_default`. -/
def setDefault (s : ManagerState) (pid aid : String) : ManagerState :=
  { s with accounts := s.accounts.map (fun a =>
      if a.providerId == pid then { a with isDefault := a.id == aid } else a) }

/-! ### Chat data model (`types.rs`) -/

/-- `FunctionCall`. -/
structure FunctionCall where
  name : String
  arguments : String
deriving DecidableEq

/-- `ToolCall`. -/
structure ToolCall where
  id : String
  callType : String
  function : FunctionCall
deriving DecidableEq

/-- `Message`. -/
structure Message where
  role : String
  content : String
  functionCall : Option FunctionCall
  toolCalls : Option (List ToolCall)
deriving DecidableEq

/-- `ProviderPreference`. -/
inductive ProviderPreference
  | costOptimal
  | latencyOptimal
  | qualityTier
  | loadBalanced
  | specificProvider (idx : Nat)
deriving DecidableEq

/-- `ChatRequest`. `temperature`/`top_p` are `f32` fields the embedded code
only copies, modelled as `Rat`. -/
structure ChatRequest where
  model : String
  provider : Option String
  messages : List Message
  temperature : Rat
  maxTokens : Nat
  topP : Option Rat
  stop : Option (List String)
  providerPreference : Option ProviderPreference
  userId : Option String
  metadata : List (String × String)
deriving DecidableEq

/-- `TokenUsage` (`u32` counters). -/
structure TokenUsage where
  promptTokens : Nat
  completionTokens : Nat
  totalTokens : Nat
deriving DecidableEq

/-- `Choice`. -/
structure Choice where
  index : Nat
  message : Message
  finishReason : String
deriving DecidableEq

/-- `ChatResponse`. `created` is seconds; `cost` is the `f64` as `Rat`. -/
structure ChatResponse where
  id : String
  provider : String
  model : String
  choices : List Choice
  usage : TokenUsage
  created : Int
  latencyMs : Nat
  cost : Rat
deriving DecidableEq

/-! ### Cost & budget ledger (`src/cost.rs`, types from `types.rs`) -/

/-- A `chrono::DateTime<Utc>` abstracted by the two observations the cost
module makes of it: the instant (seconds, for range filtering) and the
calendar day of month (`Datelike::day`). -/
structure Instant where
  sec : Int
  dayOfMonth : Nat
deriving DecidableEq

/-- `CostEntry` (money as `Rat`). -/
structure CostEntry where
  id : String
  timestamp : Instant
  provider : String
  model : String
  inputTokens : Nat
  outputTokens : Nat
  cost : Rat
  userId : String
  requestId : String
deriving DecidableEq

/-- `Budget` (money as `Rat`; `reset_day` is the `u8`). -/
structure Budget where
  entityId : String
  monthlyLimit : Rat
  spentThisMonth : Rat
  enforceLimit : Bool
  alertThresholds : List Rat
  resetDay : Nat
deriving DecidableEq

/-- The mutable state of `CostManager`: the append-only ledger and the
per-user budget map. -/
structure CostState where
  entries : List CostEntry
  budgets : List (String × Budget)
deriving DecidableEq

/-- `CostManager::record_cost`. The generated UUID and `Utc::now()` are
environment inputs (`newId`, `now`). -/
def recordCost (s : CostState) (provider model : String) (usage : TokenUsage) (cost : Rat)
    (userId requestId : String) (now : Instant) (newId : String) : CostEntry × CostState :=
  let entry : CostEntry :=
    { id := newId, timestamp := now, provider := provider, model := model,
      inputTokens := usage.promptTokens, outputTokens := usage.completionTokens,
      cost := cost, userId := userId, requestId := requestId }
  let budgets' :=
    match lookupA s.budgets userId with
    | some b => insertA s.budgets userId { b with spentThisMonth := b.spentThisMonth + cost }
    | none => s.budgets
  (entry, { entries := s.entries ++ [entry], budgets := budgets' })

/-- `CostManager::set_budget`. -/
def setBudget (s : CostState) (entityId : String) (monthlyLimit : Rat) (enforce : Bool) :
    CostState :=
  let fresh : Budget :=
    { entityId := entityId, monthlyLimit := monthlyLimit, spentThisMonth := 0,
      enforceLimit := enforce, alertThresholds := [1/2, 4/5, 9/10, 1], resetDay := 1 }
  { s with budgets := insertA s.budgets entityId fresh }

/-- `CostManager::reset_monthly_budgets` (`today` is `Utc::now().day()`). -/
def resetMonthlyBudgets (s : CostState) (today : Nat) : CostState :=
  { s with budgets := s.budgets.map (fun kb =>
      (kb.1, if kb.2.resetDay == today then { kb.2 with spentThisMonth := 0 } else kb.2)) }

/-! ### Adapter error classification (`providers/anthropic.rs`, `providers/cohere.rs`) -/

/-- `reqwest::StatusCode::is_success` (`200..=299`). -/
def statusIsSuccess (status : Nat) : Bool := 200 ≤ status && status < 300

/-- The status/parse handling of `AnthropicAdapter::chat` after the HTTP
round-trip: `429 → RateLimited`, `401 → AuthFailed`, other non-2xx →
`RequestFailed` with status and body, failed JSON parse → `InvalidResponse`.
(`reqwest`'s `Display` for the status is abbreviated to the bare code.) -/
def anthropicHandleResponse {α : Type} (status : Nat) (errText : String)
    (parsed : Except String α) : Except SynapseError α :=
  if status == 429 then .error (.provider .rateLimited)
  else if status == 401 then .error (.provider .authFailed)
  else if !(statusIsSuccess status) then
    .error (.provider (.requestFailed ("Status: " ++ toString status ++ ", Body: " ++ errText)))
  else
    match parsed with
    | .error e => .error (.provider (.invalidResponse e))
    | .ok v => .ok v

/-- The identical status/parse handling of `CohereAdapter::chat`. -/
def cohereHandleResponse {α : Type} (status : Nat) (errText : String)
    (parsed : Except String α) : Except SynapseError α :=
  if status == 429 then .error (.provider .rateLimited)
  else if status == 401 then .error (.provider .authFailed)
  else if !(statusIsSuccess status) then
    .error (.provider (.requestFailed ("Status: " ++ toString status ++ ", Body: " ++ errText)))
  else
    match parsed with
    | .error e => .error (.provider (.invalidResponse e))
    | .ok v => .ok v

/-- The identical status/parse handling of `OpenAIAdapter::chat`
(`openai.rs`). -/
def openaiHandleResponse {α : Type} (status : Nat) (errText : String)
    (parsed : Except String α) : Except SynapseError α :=
  if status == 429 then .error (.provider .rateLimited)
  else if status == 401 then .error (.provider .authFailed)
  else if !(statusIsSuccess status) then
    .error (.provider (.requestFailed ("Status: " ++ toString status ++ ", Body: " ++ errText)))
  else
    match parsed with
    | .error e => .error (.provider (.invalidResponse e))
    | .ok v => .ok v

/-- The identical status/parse handling of `MistralAdapter::chat`
(`mistral.rs`). -/
def mistralHandleResponse {α : Type} (status : Nat) (errText : String)
    (parsed : Except String α) : Except SynapseError α :=
  if status == 429 then .error (.provider .rateLimited)
  else if status == 401 then .error (.provider .authFailed)
  else if !(statusIsSuccess status) then
    .error (.provider (.requestFailed ("Status: " ++ toString status ++ ", Body: " ++ errText)))
  else
    match parsed with
    | .error e => .error (.provider (.invalidResponse e))
    | .ok v => .ok v

/-- The status/parse handling of `AzureOpenAIAdapter::chat`
(`azure_openai.rs`): the JSON body is parsed FIRST — an unparseable body of
any status yields `InvalidResponse` — then a non-2xx status maps `429 →
RateLimited` and everything else (401 included) to `RequestFailed` carrying
`body.error.message` (`errMsgOf`). -/
def azureHandleResponse {α : Type} (status : Nat) (parsed : Except String α)
    (errMsgOf : α → String) : Except SynapseError α :=
  match parsed with
  | .error e => .error (.provider (.invalidResponse e))
  | .ok body =>
    if !(statusIsSuccess status) then
      if status == 429 then .error (.provider .rateLimited)
      else .error (.provider (.requestFailed (errMsgOf body)))
    else .ok body

/-- The status/parse handling of both paths of `LocalAdapter::chat`
(`local.rs`): every non-2xx (429 and 401 included) yields `RequestFailed`
carrying only the body text; a 2xx body that fails to parse yields
`InvalidResponse`. -/
def localHandleResponse {α : Type} (status : Nat) (errText : String)
    (parsed : Except String α) : Except SynapseError α :=
  if !(statusIsSuccess status) then .error (.provider (.requestFailed errText))
  else
    match parsed with
    | .error e => .error (.provider (.invalidResponse e))
    | .ok v => .ok v

/-- The status/parse handling of `GeminiAdapter::chat`
(`src/providers/gemini.rs`): the body is parsed first (failure →
`InvalidResponse` for any status); every non-2xx — 429 and 401 included —
yields `RequestFailed` carrying `body.error.message`. -/
def geminiHandleResponse {α : Type} (status : Nat) (parsed : Except String α)
    (errMsgOf : α → String) : Except SynapseError α :=
  match parsed with
  | .error e => .error (.provider (.invalidResponse e))
  | .ok body =>
    if !(statusIsSuccess status) then .error (.provider (.requestFailed (errMsgOf body)))
    else .ok body

/-- The status/parse handling of `BedrockAdapter::chat`
(`src/providers/bedrock.rs`): body parsed first (failure →
`InvalidResponse`), every non-2xx → `RequestFailed` carrying
`body.message`. -/
def bedrockHandleResponse {α : Type} (status : Nat) (parsed : Except String α)
    (errMsgOf : α → String) : Except SynapseError α :=
  match parsed with
  | .error e => .error (.provider (.invalidResponse e))
  | .ok body =>
    if !(statusIsSuccess status) then .error (.provider (.requestFailed (errMsgOf body)))
    else .ok body

/-! ### Bedrock model families and request shapes (`src/providers/bedrock.rs`) -/

/-- `BedrockAdapter::get_model_family`. -/
def getModelFamily (model : String) : String :=
  if strContains model "claude" then "anthropic"
  else if strContains model "llama" || strContains model "meta" then "meta"
  else if strContains model "titan" then "amazon"
  else if strContains model "mistral" then "mistral"
  else "anthropic"

/-- `BedrockAdapter::convert_messages_anthropic`: the last system message is
lifted out; the rest keep `(role, content)`. -/
def convertMessagesAnthropic : List Message → Option String × List (String × String)
  | [] => (none, [])
  | m :: rest =>
    let (sys, conv) := convertMessagesAnthropic rest
    if m.role = "system" then
      match sys with
      | some s => (some s, conv)
      | none => (some m.content, conv)
    else (sys, (m.role, m.content) :: conv)

/-- `BedrockAdapter::format_llama_prompt`. -/
def formatLlamaPrompt (messages : List Message) : String :=
  String.intercalate "\n"
    (messages.map (fun m => "[" ++ m.role.toUpper ++ "]: " ++ m.content))

/-- `BedrockAdapter::format_mistral_prompt`. -/
def formatMistralPrompt (messages : List Message) : String :=
  String.intercalate "\n"
    (messages.map (fun m => "<" ++ m.role ++ ">" ++ m.content ++ "</" ++ m.role ++ ">"))

/-- `BedrockAdapter::format_simple_prompt`. -/
def formatSimplePrompt (messages : List Message) : String :=
  String.intercalate "\n\n" (messages.map (fun m => m.content))

/-- The per-family JSON body built by `BedrockAdapter::build_request_body`,
keyed by the field layout each arm emits. -/
inductive BedrockBody
  | anthropicShape (anthropicVersion : String) (maxTokens : Nat) (temperature : Rat)
      (messages : List (String × String)) (system : Option String)
  | metaShape (prompt : String) (maxGenLen : Nat) (temperature : Rat)
  | mistralShape (prompt : String) (maxTokens : Nat) (temperature : Rat)
  | titanShape (inputText : String) (maxTokenCount : Nat) (temperature : Rat)
deriving DecidableEq

/-- `BedrockAdapter::build_request_body` (the Rust `match` on the family
string, as the equivalent chain of string comparisons). -/
def buildRequestBody (req : ChatRequest) : BedrockBody :=
  let fam := getModelFamily req.model
  if fam = "anthropic" then
    let (system, messages) := convertMessagesAnthropic req.messages
    .anthropicShape "bedrock-2023-05-31" req.maxTokens req.temperature messages system
  else if fam = "meta" then
    .metaShape (formatLlamaPrompt req.messages) req.maxTokens req.temperature
  else if fam = "mistral" then
    .mistralShape (formatMistralPrompt req.messages) req.maxTokens req.temperature
  else
    .titanShape (formatSimplePrompt req.messages) req.maxTokens req.temperature

/-- The JSON path `BedrockAdapter::parse_response` reads the reply text from,
per model family. -/
inductive BedrockContentSource
  | anthropicContentText
  | metaGeneration
  | mistralOutputsText
  | titanResultsOutputText
deriving DecidableEq

/-- The content-extraction arm chosen by `BedrockAdapter::parse_response`. -/
def bedrockContentSource (model : String) : BedrockContentSource :=
  let fam := getModelFamily model
  if fam = "anthropic" then .anthropicContentText
  else if fam = "meta" then .metaGeneration
  else if fam = "mistral" then .mistralOutputsText
  else .titanResultsOutputText

/-! ### Smart router (`router.rs`) -/

/-- A `dyn ProviderAdapter`'s `chat` as an abstract function of the request. -/
def AdapterFn : Type := ChatRequest → Except SynapseError ChatResponse

/-- The mutable state of `SmartRouter`: the immutable adapter list (in
construction order) plus the health-score map (`f64` EMA as `Rat`) and the
round-robin counter. -/
structure RouterState where
  adapters : List (String × AdapterFn)
  health : List (String × Rat)
  rrCounter : Nat

/-- `SmartRouter::update_health_score` (`new = old * 0.9 + 0.1·(1|0)`,
unknown providers start at `0.5`). -/
def updateHealth (s : RouterState) (pid : String) (success : Bool) : RouterState :=
  let current := (lookupA s.health pid).getD (1/2)
  let newScore := if success then current * (9/10) + (1/10) * 1 else current * (9/10) + (1/10) * 0
  { s with health := insertA s.health pid newScore }

/-- The adapter-id match used by `route_to_provider`: exact or
case-insensitive id equality. -/
def adapterMatches (registered pid : String) : Bool :=
  registered == pid || registered.toLower == pid.toLower

/-- `SmartRouter::route_to_provider`. Besides the result and the new state it
reports which adapters' `chat` ran. -/
def routeToProvider (s : RouterState) (pid : String) (req : ChatRequest) :
    Except SynapseError ChatResponse × RouterState × List String :=
  match s.adapters.find? (fun p => adapterMatches p.1 pid) with
  | none => (.error (.routing (.providerNotFound pid)), s, [])
  | some (aid, f) =>
    match f req with
    | .ok r => (.ok r, updateHealth s pid true, [aid])
    | .error e => (.error e, updateHealth s pid false, [aid])

/-- `SmartRouter::get_fallback_order`: stable sort by health score descending. -/
def fallbackOrder (s : RouterState) : List (String × AdapterFn) :=
  List.insertionSort
    (fun a b => (lookupA s.health a.1).getD (1/2) ≥ (lookupA s.health b.1).getD (1/2))
    s.adapters

/-- The fallback walk of `route_with_fallback`: try each adapter in order,
update health per attempt, return the first success or the last error
(`AllProvidersFailed` only when there was no attempt at all). -/
def fallbackWalk (req : ChatRequest) : List (String × AdapterFn) → RouterState →
    Option SynapseError → List String →
    Except SynapseError ChatResponse × RouterState × List String
  | [], s, lastErr, invoked =>
    (.error (lastErr.getD (.routing .allProvidersFailed)), s, invoked)
  | (pid, f) :: rest, s, _lastErr, invoked =>
    match f req with
    | .ok r => (.ok r, updateHealth s pid true, invoked ++ [pid])
    | .error e => fallbackWalk req rest (updateHealth s pid false) (some e) (invoked ++ [pid])

/-- `SmartRouter::route_with_fallback`. -/
def routeWithFallback (s : RouterState) (req : ChatRequest) :
    Except SynapseError ChatResponse × RouterState × List String :=
  match req.provider with
  | some pid => routeToProvider s pid req
  | none => fallbackWalk req (fallbackOrder s) s none []

/-! ### Operation alphabet of the account manager, for reachability claims -/

/-- One public mutating call on `ProviderAccountManager` (outputs discarded;
the `now` arguments stand for the `Utc::now()` reads inside the call). -/
inductive MgrOp
  | add (a : ProviderAccount)
  | update (now : Int) (aid : String) (u : AccountUpdate)
  | setDef (pid aid : String)
  | del (aid : String)
  | pick (now : Int) (pid : String)
  | record (now : Int) (aid : String) (tokens requests : Nat)

/-- Effect of one call on the manager state. -/
def applyOp (s : ManagerState) : MgrOp → ManagerState
  | .add a => (addAccount s a).2
  | .update now aid u => (updateAccount now s aid u).2
  | .setDef pid aid => setDefault s pid aid
  | .del aid => (deleteAccount s aid).2
  | .pick now pid => (getAvailableAccount now s pid).2
  | .record now aid tokens requests => recordUsageMgr now s aid tokens requests

/-- States reachable from the empty registry by calls satisfying `P`. -/
inductive ReachableVia (P : MgrOp → Prop) : ManagerState → Prop
  | init : ReachableVia P emptyManager
  | step {s : ManagerState} {op : MgrOp} :
      ReachableVia P s → P op → ReachableVia P (applyOp s op)

/-- Calls whose input accounts arrive with `is_default = false` (as
`ProviderAccount::new` constructs them). -/
def CleanOp : MgrOp → Prop
  | .add a => a.isDefault = false
  | _ => True

/-- Number of stored accounts of provider `pid` flagged as default. -/
def defaultCount (s : ManagerState) (pid : String) : Nat :=
  (s.accounts.filter (fun a => a.providerId == pid && a.isDefault)).length

/-- Well-formedness: account ids are unique and each provider has at most one
default account. -/
def GoodState (s : ManagerState) : Prop :=
  (s.accounts.map (fun a => a.id)).Nodup ∧ ∀ pid, defaultCount s pid ≤ 1

/-- The fields of an account that identify it and its default status — the
only fields the `GoodState` invariant depends on. -/
def keyOf (a : ProviderAccount) : String × String × Bool := (a.id, a.providerId, a.isDefault)

/-! ### Spec-side transcription of the (amended) selection algorithm -/

/-- The sort order the spec describes for `pick` candidates: `is_default=true`
first, then ascending `priority`, then descending `min_remaining_tokens`. -/
def specLeB (a b : Cand) : Bool :=
  (a.isDef && !b.isDef) ||
    (a.isDef == b.isDef &&
      (decide (a.prio < b.prio) || (a.prio == b.prio && decide (b.toks ≤ a.toks))))

/-- Stable sort by the spec's described order. -/
def specSort (l : List Cand) : List Cand :=
  List.insertionSort (fun a b => specLeB a b = true) l

/-- Spec-side walk: the first ranked candidate with quota wins; when the
winner is not the default and no return-to-primary entry exists, the ranked
default's id is recorded; `None` when no candidate has quota. -/
def specScan (s : ManagerState) (pid : String) (ranked : List Cand) :
    Option ProviderAccount × ManagerState :=
  match ranked.find? (fun c => c.hq) with
  | none => (none, s)
  | some c =>
    let s' :=
      if !c.isDef && (lookupA s.originalDefaults pid).isNone then
        match ranked.find? (fun d => d.isDef) with
        | some d => { s with originalDefaults := insertA s.originalDefaults pid d.id }
        | none => s
      else s
    (findById s'.accounts c.id, s')

/-- Transcription of the amended selection claim: candidates are exactly the
enabled accounts of the provider, ranked by the described order; with no
candidates the result is `None` (even if a return-to-primary entry exists);
otherwise, if the `original_default` entry's account — looked up by id alone,
enabled or not — now has quota, the entry is removed and that account (after
its lazy resets) is returned; otherwise the spec-side walk decides. -/
def pickSpec (now : Int) (s : ManagerState) (pid : String) :
    Option ProviderAccount × ManagerState :=
  let enabledAccts := getAccounts s pid
  if enabledAccts.isEmpty then (none, s)
  else
    let ranked := specSort (enabledAccts.map (candOf now))
    match lookupA s.originalDefaults pid with
    | some oid =>
      match findById s.accounts oid with
      | some acc =>
        let checked := acc.hasQuotaM now
        let s₁ := { s with accounts := insertById s.accounts checked.2 }
        if checked.1 then
          (some checked.2, { s₁ with originalDefaults := eraseA s₁.originalDefaults pid })
        else specScan s₁ pid ranked
      | none => specScan s pid ranked
    | none => specScan s pid ranked

/-! ### Concrete inputs used by counterexamples and witnesses -/

/-- A fixed API-key credential bundle for concrete test accounts. -/
def testConfig : AccountConfig := .apiKey "sk-test" none none

/-- A minute tier with `token_limit = 100` fully used up (window started at 0). -/
def exhaustedMinuteTier : QuotaTier :=
  { period := .minute, tokenLimit := 100, requestLimit := none,
    tokensUsed := 100, requestsUsed := 0, periodStart := 0 }

/-- C1 counterexample: enabled account of provider `"p"` with its minute
quota exhausted. -/
def c1AcctA : ProviderAccount :=
  { id := "a", name := "A", providerId := "p", config := testConfig,
    enabled := true, isDefault := true, priority := 0,
    quotas := [(.minute, exhaustedMinuteTier)], models := [],
    createdAt := 0, updatedAt := 0 }

/-- C1 counterexample: disabled account of provider `"p"` with no quota tiers
(unlimited). -/
def c1AcctB : ProviderAccount :=
  { id := "b", name := "B", providerId := "p", config := testConfig,
    enabled := false, isDefault := false, priority := 1,
    quotas := [], models := [],
    createdAt := 0, updatedAt := 0 }

/-- C1 counterexample state: the return-to-primary table points at the
disabled account `"b"`. -/
def c1State : ManagerState :=
  { accounts := [c1AcctA, c1AcctB], originalDefaults := [("p", "b")] }

/-- C3 counterexample: first clean account of provider `"p"`. -/
def c3AcctA : ProviderAccount :=
  { id := "a3", name := "First", providerId := "p", config := testConfig,
    enabled := true, isDefault := false, priority := 0, quotas := [], models := [],
    createdAt := 0, updatedAt := 0 }

/-- C3 counterexample: second account of provider `"p"` arriving with
`is_default` already set. -/
def c3AcctB : ProviderAccount :=
  { id := "b3", name := "Second", providerId := "p", config := testConfig,
    enabled := true, isDefault := true, priority := 0, quotas := [], models := [],
    createdAt := 0, updatedAt := 0 }

/-- Adding `c3AcctA` then `c3AcctB` to the empty registry. -/
def c3BadState : ManagerState :=
  applyOp (applyOp emptyManager (.add c3AcctA)) (.add c3AcctB)

/-- A clean one-step state for the C3 witness. -/
def c3WitState : ManagerState := applyOp emptyManager (.add c3AcctA)

/-- C5 counterexample: an account ... -/
def c5AcctA : ProviderAccount :=
  { id := "x", name := "first", providerId := "p", config := testConfig,
    enabled := true, isDefault := false, priority := 0, quotas := [], models := [],
    createdAt := 0, updatedAt := 0 }

/-- ... and a different account with the same id. -/
def c5AcctA2 : ProviderAccount :=
  { id := "x", name := "second", providerId := "p", config := testConfig,
    enabled := true, isDefault := false, priority := 5, quotas := [], models := [],
    createdAt := 1, updatedAt := 1 }

/-- C6 counterexample: a prior ledger entry recorded on day 14. -/
def c6PrevEntry : CostEntry :=
  { id := "e0", timestamp := { sec := 1000, dayOfMonth := 14 }, provider := "OpenAI",
    model := "gpt-4", inputTokens := 10, outputTokens := 5, cost := 8,
    userId := "u", requestId := "r0" }

/-- C6 counterexample: budget for `"u"` with `reset_day = 15` and `$8` spent. -/
def c6Budget : Budget :=
  { entityId := "u", monthlyLimit := 10, spentThisMonth := 8,
    enforceLimit := true, alertThresholds := [1/2, 4/5, 9/10, 1], resetDay := 15 }

/-- C6 counterexample ledger state. -/
def c6State : CostState := { entries := [c6PrevEntry], budgets := [("u", c6Budget)] }

/-- C6 counterexample: a `record_cost` timestamp on day 15 (the reset day). -/
def c6Now : Instant := { sec := 2000, dayOfMonth := 15 }

/-- C4 witness: an adapter that always fails authentication. -/
def c4Adapter : AdapterFn := fun _ => .error (.provider .authFailed)

/-- C4 witness router state with the single adapter registered as `"openai"`. -/
def c4Router : RouterState :=
  { adapters := [("openai", c4Adapter)], health := [], rrCounter := 0 }

/-- C4 witness request naming provider `"openai"` explicitly. -/
def c4Req : ChatRequest :=
  { model := "gpt-4", provider := some "openai", messages := [], temperature := 7/10,
    maxTokens := 2048, topP := none, stop := none, providerPreference := none,
    userId := none, metadata := [] }

/-- C8 witness/counterexample request with a model id matching no family
substring. -/
def c8Req : ChatRequest :=
  { model := "foo-model", provider := none,
    messages := [{ role := "user", content := "hi", functionCall := none, toolCalls := none }],
    temperature := 7/10, maxTokens := 256, topP := none, stop := none,
    providerPreference := none, userId := none, metadata := [] }

/-- A Titan request for the C8 amended-claim witness. -/
def c8TitanReq : ChatRequest :=
  { model := "amazon.titan-text-express-v1", provider := none,
    messages := [{ role := "user", content := "hi", functionCall := none, toolCalls := none }],
    temperature := 7/10, maxTokens := 256, topP := none, stop := none,
    providerPreference := none, userId := none, metadata := [] }

/-- C9 witness: a defaulted account of provider `"p"`. -/
def c9AcctA : ProviderAccount :=
  { id := "a9", name := "A", providerId := "p", config := testConfig,
    enabled := true, isDefault := true, priority := 0, quotas := [], models := [],
    createdAt := 0, updatedAt := 0 }

/-- C9 witness: an account of another provider. -/
def c9AcctQ : ProviderAccount :=
  { id := "q9", name := "Q", providerId := "q", config := testConfig,
    enabled := true, isDefault := true, priority := 0, quotas := [], models := [],
    createdAt := 0, updatedAt := 0 }

/-- C9 witness state. -/
def c9State : ManagerState := { accounts := [c9AcctA, c9AcctQ], originalDefaults := [] }

/-- C10 witness: a tier pushed past its token limit. -/
def c10Tier : QuotaTier :=
  { period := .hour, tokenLimit := 50, requestLimit := some 10,
    tokensUsed := 20, requestsUsed := 1, periodStart := 0 }

/-- Decidable equality of `Except` results, for evaluating outcomes. -/
instance {ε α : Type} [DecidableEq ε] [DecidableEq α] : DecidableEq (Except ε α) := fun x y =>
  match x, y with
  | .ok a, .ok b => decidable_of_iff (a = b) (by simp)
  | .ok _, .error _ => .isFalse (by simp)
  | .error _, .ok _ => .isFalse (by simp)
  | .error e, .error f => decidable_of_iff (e = f) (by simp)

/-! ## Helper lemmas -/

theorem wrapSub64_eq_sub {a b : Nat} (hb : b ≤ a) (ha : a < u64Mod) :
    wrapSub64 a b = a - b := by
  unfold wrapSub64
  have h1 : a + (u64Mod - b) = u64Mod + (a - b) := by
    unfold u64Mod at ha ⊢
    omega
  rw [h1, Nat.add_mod_left, Nat.mod_eq_of_lt (by omega)]

theorem remainingTokens_eq (t : QuotaTier) (h : t.tokenLimit < u64Mod) :
    t.remainingTokens = t.tokenLimit - min t.tokensUsed t.tokenLimit := by
  unfold QuotaTier.remainingTokens
  split
  · omega
  · rw [wrapSub64_eq_sub (by omega) h]
    omega

theorem recordUsage_tokenLimit (t : QuotaTier) (now : Int) (tokens requests : Nat) :
    (t.recordUsage now tokens requests).tokenLimit = t.tokenLimit := by
  unfold QuotaTier.recordUsage QuotaTier.resetIfExpired
  split <;> rfl

/-! ## C10 -/

/-- C10: `QuotaTier::remaining_tokens` returns `token_limit − tokens_used`
when usage is below the limit and `0` otherwise (the guarded `u64`
subtraction never wraps for in-range limits), including after `record_usage`
has pushed `tokens_used` past `token_limit`; and `min_remaining_tokens` is a
total function, `None` exactly on an account with no quota tiers. -/
theorem c10_remaining_tokens_safe :
    (∀ t : QuotaTier, t.tokenLimit < u64Mod →
      t.remainingTokens = t.tokenLimit - min t.tokensUsed t.tokenLimit) ∧
    (∀ (t : QuotaTier) (now : Int) (tokens requests : Nat), t.tokenLimit < u64Mod →
      (t.recordUsage now tokens requests).remainingTokens
        = t.tokenLimit - min (t.recordUsage now tokens requests).tokensUsed t.tokenLimit) ∧
    (∀ a : ProviderAccount, a.minRemainingTokens = none ↔ a.quotas = []) := by
  refine ⟨fun t h => remainingTokens_eq t h, fun t now tokens requests h => ?_, fun a => ?_⟩
  · have hl := recordUsage_tokenLimit t now tokens requests
    rw [remainingTokens_eq _ (by rw [hl]; exact h), hl]
  · unfold ProviderAccount.minRemainingTokens
    rw [List.min?_eq_none_iff, List.map_eq_nil_iff]

/-- C10 witness: the second conjunct of `c10_remaining_tokens_safe` at a tier
pushed past its `token_limit` by `record_usage`. -/
theorem c10_remaining_tokens_safe_witness :
    c10Tier.tokenLimit < u64Mod ∧
    (c10Tier.recordUsage 0 40 1).remainingTokens
      = c10Tier.tokenLimit - min (c10Tier.recordUsage 0 40 1).tokensUsed c10Tier.tokenLimit :=
  ⟨by decide, c10_remaining_tokens_safe.2.1 c10Tier 0 40 1 (by decide)⟩

/-! ## C2 -/

/-- C2 counterexample: at the exact instant `now = period_start +
period.duration` an exhausted tier does NOT yet count as having quota
available (`is_period_expired` uses a strict comparison), contradicting the
claim's `now ≥ period_start + period.duration` boundary. -/
theorem c2_boundary_counterexample :
    QuotaTier.hasQuotaAvailable 60 exhaustedMinuteTier = false ∧
    (60 : Int) ≥ exhaustedMinuteTier.periodStart + exhaustedMinuteTier.period.durationSecs ∧
    exhaustedMinuteTier.tokensUsed ≥ exhaustedMinuteTier.tokenLimit ∧
    exhaustedMinuteTier.requestLimit = none := by
  refine ⟨by decide, by decide, by decide, rfl⟩

/-- C2 (amended): a quota tier has quota available iff now is STRICTLY past
`period_start + period.duration` (the window-end instant itself is not yet
expired), or `tokens_used < token_limit` and the request limit is absent or
not reached. -/
theorem c2_has_quota_available_iff (t : QuotaTier) (now : Int) :
    t.hasQuotaAvailable now = true ↔
      (t.periodStart + t.period.durationSecs < now ∨
        (t.tokensUsed < t.tokenLimit ∧
          (t.requestLimit = none ∨
            ∃ r, t.requestLimit = some r ∧ t.requestsUsed < r))) := by
  unfold QuotaTier.hasQuotaAvailable QuotaTier.isPeriodExpired
  rcases hrl : t.requestLimit with _ | r <;> split_ifs <;> simp_all <;> omega

/-! ## C7 -/

/-- C7 counterexample: the error mapping is not uniform across the layer and
401/403 do not map to `AuthFailed` everywhere: the Anthropic (and Cohere)
adapter maps an upstream HTTP 403 to `RequestFailed`, the Azure OpenAI
adapter maps HTTP 401 to `RequestFailed`, and the local adapter maps both
429 and 401 to `RequestFailed` carrying only the body. -/
theorem c7_403_counterexample :
    anthropicHandleResponse 403 "forbidden" (Except.ok ()) =
      Except.error (SynapseError.provider
        (ProviderError.requestFailed "Status: 403, Body: forbidden")) ∧
    cohereHandleResponse 403 "forbidden" (Except.ok ()) =
      Except.error (SynapseError.provider
        (ProviderError.requestFailed "Status: 403, Body: forbidden")) ∧
    anthropicHandleResponse 403 "forbidden" (Except.ok ()) ≠
      Except.error (SynapseError.provider ProviderError.authFailed) ∧
    azureHandleResponse 401 (Except.ok ()) (fun _ => "Unknown error") =
      Except.error (SynapseError.provider (ProviderError.requestFailed "Unknown error")) ∧
    localHandleResponse 429 "too many" (Except.ok ()) =
      Except.error (SynapseError.provider (ProviderError.requestFailed "too many")) ∧
    localHandleResponse 401 "denied" (Except.ok ()) =
      Except.error (SynapseError.provider (ProviderError.requestFailed "denied")) := by
  refine ⟨by decide, by decide, by decide, by decide, by decide, by decide⟩

/-- C7 (amended): HTTP error classification is per-adapter, not uniform. The
OpenAI, Anthropic, Mistral and Cohere adapters classify identically: 429 →
`RateLimited`, 401 → `AuthFailed`, every other non-2xx (403 included) →
`RequestFailed` carrying status and body, and a 2xx body that fails to parse
→ `InvalidResponse`. The Azure OpenAI adapter parses the body first (an
unparseable body of any status → `InvalidResponse`) and special-cases only
429 → `RateLimited`, mapping 401 and every other non-2xx to `RequestFailed`
carrying the upstream error message. The local adapter maps every non-2xx —
429 and 401 included — to `RequestFailed` carrying only the body. The Gemini
and Bedrock adapters classify identically, special-casing neither 429 nor
401: parse failure → `InvalidResponse`, any non-2xx → `RequestFailed`. -/
theorem c7_error_mapping {α : Type} (status : Nat) (errText : String)
    (parsed : Except String α) (errMsgOf : α → String) :
    (openaiHandleResponse status errText parsed
        = anthropicHandleResponse status errText parsed ∧
      mistralHandleResponse status errText parsed
        = anthropicHandleResponse status errText parsed ∧
      cohereHandleResponse status errText parsed
        = anthropicHandleResponse status errText parsed) ∧
    (status = 429 →
      anthropicHandleResponse status errText parsed =
        Except.error (SynapseError.provider ProviderError.rateLimited)) ∧
    (status = 401 →
      anthropicHandleResponse status errText parsed =
        Except.error (SynapseError.provider ProviderError.authFailed)) ∧
    (¬(status = 429) → ¬(status = 401) → statusIsSuccess status = false →
      anthropicHandleResponse status errText parsed =
        Except.error (SynapseError.provider
          (ProviderError.requestFailed
            ("Status: " ++ toString status ++ ", Body: " ++ errText)))) ∧
    (statusIsSuccess status = true → ∀ e, parsed = Except.error e →
      anthropicHandleResponse status errText parsed =
        Except.error (SynapseError.provider (ProviderError.invalidResponse e))) ∧
    (statusIsSuccess status = true → ∀ v, parsed = Except.ok v →
      anthropicHandleResponse status errText parsed = Except.ok v) ∧
    (∀ e, parsed = Except.error e →
      azureHandleResponse status parsed errMsgOf =
        Except.error (SynapseError.provider (ProviderError.invalidResponse e))) ∧
    (∀ body, parsed = Except.ok body → status = 429 →
      azureHandleResponse status parsed errMsgOf =
        Except.error (SynapseError.provider ProviderError.rateLimited)) ∧
    (∀ body, parsed = Except.ok body → statusIsSuccess status = false → ¬(status = 429) →
      azureHandleResponse status parsed errMsgOf =
        Except.error (SynapseError.provider (ProviderError.requestFailed (errMsgOf body)))) ∧
    (statusIsSuccess status = false →
      localHandleResponse status errText parsed =
        Except.error (SynapseError.provider (ProviderError.requestFailed errText))) ∧
    (geminiHandleResponse status parsed errMsgOf
      = bedrockHandleResponse status parsed errMsgOf) ∧
    (∀ e, parsed = Except.error e →
      geminiHandleResponse status parsed errMsgOf =
        Except.error (SynapseError.provider (ProviderError.invalidResponse e))) ∧
    (∀ body, parsed = Except.ok body → statusIsSuccess status = false →
      geminiHandleResponse status parsed errMsgOf =
        Except.error (SynapseError.provider (ProviderError.requestFailed (errMsgOf body)))) := by
  refine ⟨⟨rfl, rfl, rfl⟩, ?_, ?_, ?_, ?_, ?_, ?_, ?_, ?_, ?_, rfl, ?_, ?_⟩
  · intro h
    subst h
    rfl
  · intro h
    subst h
    rfl
  · intro h429 h401 hs
    unfold anthropicHandleResponse
    rw [if_neg (by simpa using h429), if_neg (by simpa using h401), hs]
    rfl
  · intro hs e he
    have h429 : ¬(status == 429) = true := by
      intro h
      rw [beq_iff_eq] at h
      subst h
      simp [statusIsSuccess] at hs
    have h401 : ¬(status == 401) = true := by
      intro h
      rw [beq_iff_eq] at h
      subst h
      simp [statusIsSuccess] at hs
    unfold anthropicHandleResponse
    rw [if_neg h429, if_neg h401, hs, he]
    rfl
  · intro hs v hv
    have h429 : ¬(status == 429) = true := by
      intro h
      rw [beq_iff_eq] at h
      subst h
      simp [statusIsSuccess] at hs
    have h401 : ¬(status == 401) = true := by
      intro h
      rw [beq_iff_eq] at h
      subst h
      simp [statusIsSuccess] at hs
    unfold anthropicHandleResponse
    rw [if_neg h429, if_neg h401, hs, hv]
    rfl
  · intro e he
    unfold azureHandleResponse
    rw [he]
  · intro body hb h429
    subst h429
    unfold azureHandleResponse
    rw [hb]
    rfl
  · intro body hb hs h429
    have hcond : (!(statusIsSuccess status)) = true := by
      rw [hs]
      rfl
    unfold azureHandleResponse
    rw [hb]
    dsimp only
    rw [if_pos hcond, if_neg (by simpa using h429)]
  · intro hs
    unfold localHandleResponse
    rw [hs]
    rfl
  · intro e he
    unfold geminiHandleResponse
    rw [he]
  · intro body hb hs
    unfold geminiHandleResponse
    rw [hb, hs]
    rfl

/-- C7 witness: `c7_error_mapping` applied at concrete statuses across the
adapter groups. -/
theorem c7_error_mapping_witness :
    anthropicHandleResponse 429 "limited" (Except.ok ()) =
      Except.error (SynapseError.provider ProviderError.rateLimited) ∧
    anthropicHandleResponse 401 "denied" (Except.ok ()) =
      Except.error (SynapseError.provider ProviderError.authFailed) ∧
    anthropicHandleResponse 200 "" (Except.error "bad json" : Except String Unit) =
      Except.error (SynapseError.provider (ProviderError.invalidResponse "bad json")) ∧
    azureHandleResponse 401 (Except.ok ()) (fun _ => "Unknown error") =
      Except.error (SynapseError.provider (ProviderError.requestFailed "Unknown error")) ∧
    localHandleResponse 429 "too many" (Except.ok () : Except String Unit) =
      Except.error (SynapseError.provider (ProviderError.requestFailed "too many")) ∧
    geminiHandleResponse 401 (Except.ok ()) (fun _ => "denied") =
      Except.error (SynapseError.provider (ProviderError.requestFailed "denied")) := by
  obtain ⟨-, h429, -, -, -, -, -, -, -, -, -, -, -⟩ :=
    c7_error_mapping 429 "limited" (Except.ok () : Except String Unit) (fun _ => "")
  obtain ⟨-, -, h401, -, -, -, -, -, -, -, -, -, -⟩ :=
    c7_error_mapping 401 "denied" (Except.ok () : Except String Unit) (fun _ => "")
  obtain ⟨-, -, -, -, hparse, -, -, -, -, -, -, -, -⟩ :=
    c7_error_mapping 200 "" (Except.error "bad json" : Except String Unit) (fun _ => "")
  obtain ⟨-, -, -, -, -, -, -, -, hazure, -, -, -, -⟩ :=
    c7_error_mapping 401 "" (Except.ok () : Except String Unit) (fun _ => "Unknown error")
  obtain ⟨-, -, -, -, -, -, -, -, -, hlocal, -, -, -⟩ :=
    c7_error_mapping 429 "too many" (Except.ok () : Except String Unit) (fun _ => "")
  obtain ⟨-, -, -, -, -, -, -, -, -, -, -, -, hgem⟩ :=
    c7_error_mapping 401 "" (Except.ok () : Except String Unit) (fun _ => "denied")
  exact ⟨h429 rfl, h401 rfl, hparse (by decide) "bad json" rfl,
    hazure () rfl (by decide) (by decide), hlocal (by decide), hgem () rfl (by decide)⟩

/-! ## C8 -/

/-- C8 counterexample: a model id containing none of the family substrings is
classified as family `anthropic`, so the adapter builds the Anthropic-shaped
body and reads `content[0].text` — not the Titan shape the claim states. -/
theorem c8_unknown_family_counterexample :
    strContains "foo-model" "claude" = false ∧ strContains "foo-model" "llama" = false ∧
    strContains "foo-model" "meta" = false ∧ strContains "foo-model" "titan" = false ∧
    strContains "foo-model" "mistral" = false ∧
    getModelFamily "foo-model" = "anthropic" ∧
    buildRequestBody c8Req =
      BedrockBody.anthropicShape "bedrock-2023-05-31" 256 (7/10) [("user", "hi")] none ∧
    bedrockContentSource "foo-model" = BedrockContentSource.anthropicContentText := by
  refine ⟨rfl, rfl, rfl, rfl, rfl, rfl, rfl, rfl⟩

/-- C8 (amended): models whose id contains `"titan"` but none of `"claude"`,
`"llama"`, `"meta"` get the Titan-shaped body `{inputText,
textGenerationConfig:{maxTokenCount, temperature}}` with the reply text read
from `results[0].outputText`; a model containing none of the five family
substrings falls back to the Anthropic shape instead. -/
theorem c8_bedrock_family_shapes (model : String) :
    (strContains model "titan" = true → strContains model "claude" = false →
      strContains model "llama" = false → strContains model "meta" = false →
      getModelFamily model = "amazon" ∧
      (∀ req : ChatRequest, req.model = model →
        buildRequestBody req =
          BedrockBody.titanShape (formatSimplePrompt req.messages) req.maxTokens
            req.temperature) ∧
      bedrockContentSource model = BedrockContentSource.titanResultsOutputText) ∧
    (strContains model "claude" = false → strContains model "llama" = false →
      strContains model "meta" = false → strContains model "titan" = false →
      strContains model "mistral" = false →
      getModelFamily model = "anthropic" ∧
      (∀ req : ChatRequest, req.model = model →
        buildRequestBody req =
          BedrockBody.anthropicShape "bedrock-2023-05-31" req.maxTokens req.temperature
            (convertMessagesAnthropic req.messages).2 (convertMessagesAnthropic req.messages).1) ∧
      bedrockContentSource model = BedrockContentSource.anthropicContentText) := by
  constructor
  · intro ht hc hl hm
    have hfam : getModelFamily model = "amazon" := by
      simp [getModelFamily, ht, hc, hl, hm]
    refine ⟨hfam, ?_, ?_⟩
    · intro req hreq
      unfold buildRequestBody
      rw [hreq, hfam, if_neg (by decide), if_neg (by decide), if_neg (by decide)]
    · unfold bedrockContentSource
      rw [hfam, if_neg (by decide), if_neg (by decide), if_neg (by decide)]
  · intro hc hl hm ht hmi
    have hfam : getModelFamily model = "anthropic" := by
      simp [getModelFamily, ht, hc, hl, hm, hmi]
    refine ⟨hfam, ?_, ?_⟩
    · intro req hreq
      unfold buildRequestBody
      rw [hreq, hfam, if_pos rfl]
    · unfold bedrockContentSource
      rw [hfam, if_pos rfl]

/-- C8 witness: `c8_bedrock_family_shapes` at a real Titan model id and at
the unknown id `"foo-model"`. -/
theorem c8_bedrock_family_shapes_witness :
    buildRequestBody c8TitanReq =
      BedrockBody.titanShape (formatSimplePrompt c8TitanReq.messages) c8TitanReq.maxTokens
        c8TitanReq.temperature ∧
    bedrockContentSource "foo-model" = BedrockContentSource.anthropicContentText :=
  ⟨(((c8_bedrock_family_shapes "amazon.titan-text-express-v1").1 rfl rfl rfl rfl).2.1)
      c8TitanReq rfl,
   ((c8_bedrock_family_shapes "foo-model").2 rfl rfl rfl rfl rfl).2.2⟩

/-! ## Association-list lemmas -/

theorem lookupA_insertA_self {β : Type} (l : List (String × β)) (k : String) (v : β) :
    lookupA (insertA l k v) k = some v := by
  induction l with
  | nil => simp [insertA, lookupA]
  | cons p rest ih =>
    rcases p with ⟨k', w⟩
    rcases h : (k' == k) with _ | _ <;> simp [insertA, lookupA, h, ih]

theorem lookupA_insertA_ne {β : Type} (l : List (String × β)) (k k' : String) (v : β)
    (h : ¬(k' = k)) : lookupA (insertA l k v) k' = lookupA l k' := by
  have hne2 : ¬(k = k') := fun hx => h hx.symm
  induction l with
  | nil => simp [insertA, lookupA, hne2]
  | cons p rest ih =>
    rcases p with ⟨k₀, w⟩
    rcases h0 : (k₀ == k) with _ | _
    · rcases h1 : (k₀ == k') with _ | _ <;> simp [insertA, lookupA, h0, h1, ih]
    · have hk : k₀ = k := by simpa using h0
      subst hk
      simp [insertA, lookupA, hne2]

theorem lookupA_mapVal {β γ : Type} (f : β → γ) (l : List (String × β)) (k : String) :
    lookupA (l.map fun kb => (kb.1, f kb.2)) k = (lookupA l k).map f := by
  induction l with
  | nil => simp [lookupA]
  | cons p rest ih =>
    rcases p with ⟨k', v⟩
    rcases h : (k' == k) with _ | _ <;> simp [lookupA, h, ih]

/-! ## C6 -/

/-- C6 counterexample: a `record_cost` whose timestamp's day of month equals
the budget's `reset_day` (and differs from the last-recorded day) does NOT
reset `spent_this_month` first — the new spend is `8 + 2 = 10`, not the
`0 + 2 = 2` the claim requires. -/
theorem c6_no_reset_counterexample :
    c6Now.dayOfMonth = c6Budget.resetDay ∧
    ¬(c6PrevEntry.timestamp.dayOfMonth = c6Now.dayOfMonth) ∧
    (lookupA (recordCost c6State "OpenAI" "gpt-4" ⟨100, 50, 150⟩ 2 "u" "r1" c6Now
        "e1").2.budgets "u").map (fun b => b.spentThisMonth) = some (8 + 2) ∧
    (8 + 2 : Rat) = 10 ∧ ¬((0 + 2 : Rat) = 10) := by
  refine ⟨rfl, by decide, rfl, by norm_num, by norm_num⟩

/-- C6 (amended): `record_cost` performs no monthly reset at all: it appends
exactly one `CostEntry` carrying the given cost and timestamp, adds exactly
the cost to the user's `spent_this_month` when a budget exists, and leaves
all other budgets untouched; the reset lives only in the separate
`reset_monthly_budgets`, which zeroes precisely the budgets whose
`reset_day` equals the current day, regardless of any last-recorded day. -/
theorem c6_record_cost_spec (s : CostState) (provider model : String) (usage : TokenUsage)
    (cost : Rat) (userId requestId : String) (now : Instant) (newId : String) :
    (recordCost s provider model usage cost userId requestId now newId).2.entries
      = s.entries ++ [(recordCost s provider model usage cost userId requestId now newId).1] ∧
    (recordCost s provider model usage cost userId requestId now newId).1.cost = cost ∧
    (recordCost s provider model usage cost userId requestId now newId).1.timestamp = now ∧
    (∀ b, lookupA s.budgets userId = some b →
      lookupA (recordCost s provider model usage cost userId requestId now newId).2.budgets
          userId
        = some { b with spentThisMonth := b.spentThisMonth + cost }) ∧
    (lookupA s.budgets userId = none →
      (recordCost s provider model usage cost userId requestId now newId).2.budgets
        = s.budgets) ∧
    (∀ uid, ¬(uid = userId) →
      lookupA (recordCost s provider model usage cost userId requestId now newId).2.budgets uid
        = lookupA s.budgets uid) ∧
    (∀ (t : CostState) (today : Nat) (k : String),
      lookupA (resetMonthlyBudgets t today).budgets k
        = (lookupA t.budgets k).map
            (fun b => if b.resetDay == today then { b with spentThisMonth := 0 } else b)) := by
  refine ⟨rfl, rfl, rfl, ?_, ?_, ?_, ?_⟩
  · intro b hb
    unfold recordCost
    simp only [hb]
    exact lookupA_insertA_self ..
  · intro hb
    unfold recordCost
    simp only [hb]
  · intro uid hne
    unfold recordCost
    cases hlk : lookupA s.budgets userId with
    | none => simp [hlk]
    | some b => simp only [hlk]; exact lookupA_insertA_ne _ _ _ _ hne
  · intro t today k
    simpa [resetMonthlyBudgets] using
      lookupA_mapVal (fun b => if b.resetDay == today then { b with spentThisMonth := 0 } else b)
        t.budgets k

/-- C6 witness: `c6_record_cost_spec` applied at the concrete ledger state. -/
theorem c6_record_cost_spec_witness :
    lookupA (recordCost c6State "OpenAI" "gpt-4" ⟨100, 50, 150⟩ 2 "u" "r1" c6Now
        "e1").2.budgets "u"
      = some { c6Budget with spentThisMonth := c6Budget.spentThisMonth + 2 } :=
  (c6_record_cost_spec c6State "OpenAI" "gpt-4" ⟨100, 50, 150⟩ 2 "u" "r1" c6Now
    "e1").2.2.2.1 c6Budget rfl

/-! ## C4 -/

/-- C4: when a request carries an explicit provider id, `route_with_fallback`
dispatches to the single matching adapter only: with no match the result is
`ProviderNotFound` and no adapter runs; with a match exactly that adapter's
`chat` runs, a success or failure is returned unchanged, and the router
never substitutes `AllProvidersFailed` for a provider failure. -/
theorem c4_explicit_provider_no_fallback (s : RouterState) (req : ChatRequest) (pid : String)
    (hp : req.provider = some pid) :
    (s.adapters.find? (fun p => adapterMatches p.1 pid) = none →
      (routeWithFallback s req).1
        = Except.error (SynapseError.routing (RoutingError.providerNotFound pid)) ∧
      (routeWithFallback s req).2.2 = []) ∧
    (∀ aid f, s.adapters.find? (fun p => adapterMatches p.1 pid) = some (aid, f) →
      (routeWithFallback s req).2.2 = [aid] ∧
      adapterMatches aid pid = true ∧
      (∀ r, f req = Except.ok r → (routeWithFallback s req).1 = Except.ok r) ∧
      (∀ e, f req = Except.error e → (routeWithFallback s req).1 = Except.error e) ∧
      (∀ e : ProviderError, f req = Except.error (SynapseError.provider e) →
        ¬((routeWithFallback s req).1
            = Except.error (SynapseError.routing RoutingError.allProvidersFailed)))) := by
  have hroute : routeWithFallback s req = routeToProvider s pid req := by
    unfold routeWithFallback
    rw [hp]
  rw [hroute]
  constructor
  · intro h
    have hnone : routeToProvider s pid req
        = (Except.error (SynapseError.routing (RoutingError.providerNotFound pid)), s, []) := by
      unfold routeToProvider
      rw [h]
    rw [hnone]
    exact ⟨rfl, rfl⟩
  · intro aid f h
    have hfound : routeToProvider s pid req
        = match f req with
          | Except.ok r => (Except.ok r, updateHealth s pid true, [aid])
          | Except.error e => (Except.error e, updateHealth s pid false, [aid]) := by
      unfold routeToProvider
      rw [h]
    rw [hfound]
    have hmatch : adapterMatches aid pid = true := by
      have := List.find?_some h
      simpa using this
    cases hfr : f req with
    | ok r =>
      refine ⟨rfl, hmatch, ?_, ?_, ?_⟩
      · intro r' hr'
        cases hr'
        rfl
      · intro e he
        cases he
      · intro e he
        cases he
    | error e =>
      refine ⟨rfl, hmatch, ?_, ?_, ?_⟩
      · intro r hr
        cases hr
      · intro e' he
        cases he
        rfl
      · intro e' he hcontra
        cases he
        cases hcontra

/-- C4 witness: `c4_explicit_provider_no_fallback` at a one-adapter router
whose adapter fails with `AuthFailed`. -/
theorem c4_explicit_provider_no_fallback_witness :
    (routeWithFallback c4Router c4Req).1
      = Except.error (SynapseError.provider ProviderError.authFailed) ∧
    (routeWithFallback c4Router c4Req).2.2 = ["openai"] := by
  have h := c4_explicit_provider_no_fallback c4Router c4Req "openai" rfl
  have h2 := h.2 "openai" c4Adapter rfl
  exact ⟨h2.2.2.2.1 (SynapseError.provider ProviderError.authFailed) rfl, h2.1⟩

/-! ## C9 -/

/-- C9: `set_default` is total (no failure path): it sets `is_default` of
every account of the provider to "is this the named account", leaves every
account of other providers unchanged, and when the named account does not
exist among the provider's accounts the provider is left with zero
defaults. -/
theorem c9_set_default_total (s : ManagerState) (pid aid : String) :
    (setDefault s pid aid).accounts.length = s.accounts.length ∧
    (∀ a ∈ (setDefault s pid aid).accounts, a.providerId = pid → a.isDefault = (a.id == aid)) ∧
    (∀ a ∈ s.accounts, ¬(a.providerId = pid) → a ∈ (setDefault s pid aid).accounts) ∧
    ((∀ a ∈ s.accounts, ¬(a.providerId = pid ∧ a.id = aid)) →
      defaultCount (setDefault s pid aid) pid = 0) := by
  refine ⟨by simp [setDefault], ?_, ?_, ?_⟩
  · intro a ha hpid
    simp only [setDefault, List.mem_map] at ha
    obtain ⟨b, hb, heq⟩ := ha
    rcases hc : (b.providerId == pid) with _ | _
    · rw [hc] at heq
      simp only [Bool.false_eq_true, if_false] at heq
      subst heq
      exact absurd (by simpa using hpid) (by simpa using hc)
    · rw [hc] at heq
      simp only [if_true] at heq
      subst heq
      rfl
  · intro a ha hne
    simp only [setDefault, List.mem_map]
    refine ⟨a, ha, ?_⟩
    rw [if_neg (by simpa using hne)]
  · intro h
    unfold defaultCount setDefault
    rw [← List.countP_eq_length_filter, List.countP_map, List.countP_eq_zero]
    intro a ha
    simp only [Function.comp_apply]
    rcases hc : (a.providerId == pid) with _ | _
    · simp [hc]
    · have hpid : a.providerId = pid := by simpa using hc
      have hid : ¬(a.id = aid) := fun hx => h a ha ⟨hpid, hx⟩
      simp [hc, hid]

/-- C9 witness: `c9_set_default_total` with an account id that names no
stored account. -/
theorem c9_set_default_total_witness :
    defaultCount (setDefault c9State "p" "zzz") "p" = 0 ∧
    c9AcctQ ∈ (setDefault c9State "p" "zzz").accounts :=
  ⟨(c9_set_default_total c9State "p" "zzz").2.2.2 (by decide),
   (c9_set_default_total c9State "p" "zzz").2.2.1 c9AcctQ (by decide) (by decide)⟩

/-! ## Lemmas about `insertById` -/

theorem findById_insertById_self (l : List ProviderAccount) (a : ProviderAccount) :
    findById (insertById l a) a.id = some a := by
  induction l with
  | nil => simp [insertById, findById]
  | cons b rest ih =>
    rcases h : (b.id == a.id) with _ | _
    · simpa [insertById, findById, h] using ih
    · simp [insertById, findById, h]

theorem mem_insertById_of_ne (l : List ProviderAccount) (a b : ProviderAccount)
    (hb : b ∈ l) (hne : ¬(b.id = a.id)) : b ∈ insertById l a := by
  induction l with
  | nil => cases hb
  | cons c rest ih =>
    rcases h : (c.id == a.id) with _ | _
    · rcases List.mem_cons.mp hb with hbc | hbr
      · subst hbc
        simp [insertById, h]
      · simp only [insertById, h, Bool.false_eq_true, if_false]
        exact List.mem_cons_of_mem c (ih hbr)
    · rcases List.mem_cons.mp hb with hbc | hbr
      · exact absurd (hbc ▸ (by simpa using h)) hne
      · simp only [insertById, h, if_true]
        exact List.mem_cons_of_mem a hbr

theorem length_insertById_present (l : List ProviderAccount) (a : ProviderAccount)
    (h : (l.any fun b => b.id == a.id) = true) : (insertById l a).length = l.length := by
  induction l with
  | nil => simp at h
  | cons b rest ih =>
    rcases hc : (b.id == a.id) with _ | _
    · have h' : (rest.any fun b => b.id == a.id) = true := by
        simpa [hc] using h
      simp [insertById, hc, ih h']
    · simp [insertById, hc]

theorem length_insertById_absent (l : List ProviderAccount) (a : ProviderAccount)
    (h : (l.any fun b => b.id == a.id) = false) : (insertById l a).length = l.length + 1 := by
  induction l with
  | nil => simp [insertById]
  | cons b rest ih =>
    rcases hc : (b.id == a.id) with _ | _
    · have h' : (rest.any fun b => b.id == a.id) = false := by
        simpa [hc] using h
      simp [insertById, hc, ih h']
    · rw [List.any_cons, hc] at h
      simp at h

/-! ## C5 -/

/-- C5 counterexample: adding a second account with an already-stored id
succeeds (it is returned `Ok`) and silently replaces the stored account,
while the claim requires the call to fail and never replace. -/
theorem c5_duplicate_id_counterexample :
    (addAccount (addAccount emptyManager c5AcctA).2 c5AcctA2).1 = Except.ok c5AcctA2 ∧
    (addAccount emptyManager c5AcctA).2.accounts.length = 1 ∧
    findById (addAccount emptyManager c5AcctA).2.accounts "x"
      = some { c5AcctA with isDefault := true } ∧
    (addAccount (addAccount emptyManager c5AcctA).2 c5AcctA2).2.accounts.length = 1 ∧
    findById (addAccount (addAccount emptyManager c5AcctA).2 c5AcctA2).2.accounts "x"
      = some c5AcctA2 ∧
    ¬(c5AcctA2 = { c5AcctA with isDefault := true }) := by
  refine ⟨rfl, rfl, rfl, rfl, rfl, by decide⟩

/-- C5 (amended): `add_account` never fails: it stores the account under its
id, replacing any previously stored account with the same id (every other
stored account is kept); the stored and returned copy equals the input in
every field except that `is_default` is forced to `true` exactly when no
existing account had the same `provider_id` (an input flag that is already
set is preserved). -/
theorem c5_add_account_spec (s : ManagerState) (a : ProviderAccount) :
    (∃ a', (addAccount s a).1 = Except.ok a') ∧
    (∀ a', (addAccount s a).1 = Except.ok a' →
      a' = { a with isDefault :=
          a.isDefault || !(s.accounts.any fun b => b.providerId == a.providerId) } ∧
      findById (addAccount s a).2.accounts a.id = some a') ∧
    (∀ b ∈ s.accounts, ¬(b.id = a.id) → b ∈ (addAccount s a).2.accounts) ∧
    ((s.accounts.any fun b => b.id == a.id) = true →
      (addAccount s a).2.accounts.length = s.accounts.length) ∧
    ((s.accounts.any fun b => b.id == a.id) = false →
      (addAccount s a).2.accounts.length = s.accounts.length + 1) := by
  unfold addAccount
  rcases haF : (s.accounts.any fun b => b.providerId == a.providerId) with _ | _
  · simp only [haF, Bool.not_false, Bool.or_true, if_true]
    refine ⟨⟨_, rfl⟩, ?_, ?_, ?_, ?_⟩
    · intro a' h
      injection h with h
      subst h
      exact ⟨rfl, findById_insertById_self s.accounts _⟩
    · intro b hb hne
      exact mem_insertById_of_ne s.accounts _ b hb hne
    · intro hid
      exact length_insertById_present s.accounts _ hid
    · intro hid
      exact length_insertById_absent s.accounts _ hid
  · simp only [haF, Bool.not_true, Bool.or_false, if_false]
    refine ⟨⟨_, rfl⟩, ?_, ?_, ?_, ?_⟩
    · intro a' h
      injection h with h
      subst h
      exact ⟨rfl, findById_insertById_self s.accounts _⟩
    · intro b hb hne
      exact mem_insertById_of_ne s.accounts _ b hb hne
    · intro hid
      exact length_insertById_present s.accounts _ hid
    · intro hid
      exact length_insertById_absent s.accounts _ hid

/-- C5 witness: `c5_add_account_spec` on the empty registry. -/
theorem c5_add_account_spec_witness :
    { c5AcctA with isDefault := true }
      = { c5AcctA with isDefault :=
          c5AcctA.isDefault
            || !(emptyManager.accounts.any fun b => b.providerId == c5AcctA.providerId) } ∧
    findById (addAccount emptyManager c5AcctA).2.accounts "x"
      = some { c5AcctA with isDefault := true } ∧
    (addAccount emptyManager c5AcctA).2.accounts.length = 0 + 1 :=
  ⟨((c5_add_account_spec emptyManager c5AcctA).2.1 { c5AcctA with isDefault := true } rfl).1,
   ((c5_add_account_spec emptyManager c5AcctA).2.1 { c5AcctA with isDefault := true } rfl).2,
   (c5_add_account_spec emptyManager c5AcctA).2.2.2.2 rfl⟩

/-! ## C1: the source comparator agrees with the spec's described order -/

theorem orderedInsert_congr {α : Type} {r q : α → α → Prop} [DecidableRel r] [DecidableRel q]
    (h : ∀ x y, r x y ↔ q x y) (a : α) :
    ∀ l, List.orderedInsert r a l = List.orderedInsert q a l
  | [] => rfl
  | b :: l => by
    simp only [List.orderedInsert]
    by_cases hr : r a b
    · rw [if_pos hr, if_pos ((h a b).mp hr)]
    · rw [if_neg hr, if_neg (fun hq => hr ((h a b).mpr hq)), orderedInsert_congr h a l]

theorem insertionSort_congr {α : Type} {r q : α → α → Prop} [DecidableRel r] [DecidableRel q]
    (h : ∀ x y, r x y ↔ q x y) :
    ∀ l, List.insertionSort r l = List.insertionSort q l
  | [] => rfl
  | a :: l => by
    simp only [List.insertionSort]
    rw [insertionSort_congr h l, orderedInsert_congr h a _]

theorem candCmp_ne_gt_iff (a b : Cand) :
    (candCmp a b ≠ Ordering.gt) ↔ (specLeB a b = true) := by
  rcases a with ⟨ida, da, pa, ta, qa⟩
  rcases b with ⟨idb, db, pb, tb, qb⟩
  unfold candCmp specLeB intCmp natCmp
  cases da <;> cases db
  · simp only [Bool.and_eq_true, Bool.or_eq_true, Bool.not_false, Bool.false_and,
      Bool.true_and, beq_self_eq_true, decide_eq_true_eq]
    split_ifs <;> simp_all [Ordering.then] <;> omega
  · simp
  · simp
  · simp only [Bool.and_eq_true, Bool.or_eq_true, Bool.not_true, Bool.and_false,
      Bool.true_and, beq_self_eq_true, decide_eq_true_eq]
    split_ifs <;> simp_all [Ordering.then] <;> omega

theorem sortCands_eq_specSort (l : List Cand) : sortCands l = specSort l := by
  unfold sortCands specSort
  exact insertionSort_congr candCmp_ne_gt_iff l

theorem pickScan_eq_specScan (s : ManagerState) (pid : String) (ranked : List Cand) :
    pickScan s pid ranked = specScan s pid ranked := rfl

theorem isEmpty_map {α β : Type} (f : α → β) (l : List α) : (l.map f).isEmpty = l.isEmpty := by
  cases l <;> rfl

/-! ## C1 -/

/-- C1 counterexample: the return-to-original branch of
`get_available_account` looks the recorded account up by id alone — here it
returns the DISABLED account `"b"` even though no enabled account of the
provider has quota available, contradicting both "considers exactly the
enabled accounts" and "None is returned when no enabled account of P has
quota available". -/
theorem c1_disabled_original_counterexample :
    ((getAvailableAccount 0 c1State "p").1).map (fun a => a.id) = some "b" ∧
    (findById c1State.accounts "b").map (fun a => a.enabled) = some false ∧
    (c1State.accounts.filter fun a =>
      a.providerId == "p" && a.enabled && a.hasQuotaAvailable 0) = [] := by
  refine ⟨rfl, rfl, rfl⟩

/-- C1 (amended): `get_available_account` behaves exactly as `pickSpec`
transcribes the amended claim: candidates are the enabled accounts of the
provider ranked default-first, then ascending priority, then descending
min-remaining-tokens; with no candidates the result is `None` even if a
return-to-original entry exists; otherwise an `original_default` entry whose
account — looked up by id alone, even when disabled — now has quota is
removed and that account returned; otherwise the first ranked candidate with
quota wins, recording the ranked default's id when the winner is not the
default and no entry exists, and `None` is returned when no candidate has
quota. -/
theorem c1_pick_matches_spec (now : Int) (s : ManagerState) (pid : String) :
    getAvailableAccount now s pid = pickSpec now s pid := by
  simp only [getAvailableAccount, pickSpec, getAccounts, sortCands_eq_specSort,
    pickScan_eq_specScan, isEmpty_map]

/-! ## C3: key-field preservation of the account-mutating operations -/

theorem keyOf_setUpdatedAt (a : ProviderAccount) (now : Int) :
    keyOf { a with updatedAt := now } = keyOf a := rfl

theorem keyOf_foldl_setQuota (now : Int) :
    ∀ (qs : List QuotaUpdate) (a : ProviderAccount),
      keyOf (qs.foldl (fun (acc : ProviderAccount) q =>
        acc.setQuota now q.period q.tokenLimit q.requestLimit) a) = keyOf a
  | [], _ => rfl
  | q :: rest, a => by
    rw [List.foldl_cons, keyOf_foldl_setQuota now rest _]
    rfl

theorem keyOf_foldl_removeQuota (now : Int) :
    ∀ (ps : List QuotaPeriod) (a : ProviderAccount),
      keyOf (ps.foldl (fun (acc : ProviderAccount) p => acc.removeQuota now p) a) = keyOf a
  | [], _ => rfl
  | p :: rest, a => by
    rw [List.foldl_cons, keyOf_foldl_removeQuota now rest _]
    rfl

theorem keyOf_applyUpdate (now : Int) (a : ProviderAccount) (u : AccountUpdate) :
    keyOf (applyUpdate now a u) = keyOf a := by
  rcases u with ⟨n, e, p, m, q, rq⟩
  unfold applyUpdate
  dsimp only
  cases n <;> cases e <;> cases p <;> cases m <;> cases q <;> cases rq <;>
    first
    | rfl
    | (rw [keyOf_setUpdatedAt, keyOf_foldl_removeQuota, keyOf_foldl_setQuota]; try rfl)
    | (rw [keyOf_setUpdatedAt, keyOf_foldl_removeQuota]; try rfl)
    | (rw [keyOf_setUpdatedAt, keyOf_foldl_setQuota]; try rfl)

theorem keyOf_recordUsage (now : Int) (tokens requests : Nat) (a : ProviderAccount) :
    keyOf (a.recordUsage now tokens requests) = keyOf a := rfl

theorem keyOf_hasQuotaM (now : Int) (a : ProviderAccount) :
    keyOf ((a.hasQuotaM now).2) = keyOf a := by
  unfold ProviderAccount.hasQuotaM
  by_cases h : a.quotas.isEmpty <;> simp [h, keyOf]

theorem id_of_keyOf {x y : ProviderAccount} (h : keyOf x = keyOf y) : x.id = y.id :=
  congrArg (fun t => t.1) h

theorem defaultPred_of_keyOf {x y : ProviderAccount} (h : keyOf x = keyOf y) (pid : String) :
    (x.providerId == pid && x.isDefault) = (y.providerId == pid && y.isDefault) := by
  have h2 : x.providerId = y.providerId := congrArg (fun t => t.2.1) h
  have h3 : x.isDefault = y.isDefault := congrArg (fun t => t.2.2) h
  rw [h2, h3]

/-! ## C3: how `insertById` affects ids and default counts -/

theorem findById_cons (b : ProviderAccount) (l : List ProviderAccount) (aid : String) :
    findById (b :: l) aid = if (b.id == aid) then some b else findById l aid := by
  cases hb : (b.id == aid) <;> simp [findById, hb]

theorem findById_some_facts {l : List ProviderAccount} {aid : String} {a : ProviderAccount}
    (h : findById l aid = some a) :
    a ∈ l ∧ a.id = aid ∧ (l.any fun b => b.id == a.id) = true := by
  have hmem := List.mem_of_find?_eq_some h
  have hpred := List.find?_some h
  refine ⟨hmem, by simpa using hpred, ?_⟩
  rw [List.any_eq_true]
  exact ⟨a, hmem, by simp⟩

theorem map_id_insertById_present (l : List ProviderAccount) (a : ProviderAccount)
    (h : (l.any fun b => b.id == a.id) = true) :
    (insertById l a).map (fun x => x.id) = l.map (fun x => x.id) := by
  induction l with
  | nil => simp at h
  | cons b rest ih =>
    rcases hc : (b.id == a.id) with _ | _
    · have h' : (rest.any fun b => b.id == a.id) = true := by simpa [hc] using h
      simp [insertById, hc, ih h']
    · have hb : b.id = a.id := by simpa using hc
      simp [insertById, hc, hb]

theorem map_id_insertById_absent (l : List ProviderAccount) (a : ProviderAccount)
    (h : (l.any fun b => b.id == a.id) = false) :
    (insertById l a).map (fun x => x.id) = l.map (fun x => x.id) ++ [a.id] := by
  induction l with
  | nil => simp [insertById]
  | cons b rest ih =>
    rcases hc : (b.id == a.id) with _ | _
    · have h' : (rest.any fun b => b.id == a.id) = false := by simpa [hc] using h
      simp [insertById, hc, ih h']
    · rw [List.any_cons, hc] at h
      simp at h

theorem countP_insertById_le (p : ProviderAccount → Bool) (l : List ProviderAccount)
    (a : ProviderAccount) :
    (insertById l a).countP p ≤ l.countP p + (if p a then 1 else 0) := by
  induction l with
  | nil => simp [insertById, List.countP_singleton]
  | cons b rest ih =>
    rcases hc : (b.id == a.id) with _ | _
    · simp only [insertById, hc, Bool.false_eq_true, if_false, List.countP_cons]
      omega
    · simp only [insertById, hc, if_true, List.countP_cons]
      omega

theorem countP_insertById_replace (p : ProviderAccount → Bool) (l : List ProviderAccount)
    (a a' : ProviderAccount) (hfind : findById l a'.id = some a) (hp : p a' = p a) :
    (insertById l a').countP p = l.countP p := by
  induction l with
  | nil => simp [findById] at hfind
  | cons b rest ih =>
    rcases hc : (b.id == a'.id) with _ | _
    · have hfind' : findById rest a'.id = some a := by
        rwa [findById_cons, hc, if_neg (by simp)] at hfind
      simp only [insertById, hc, Bool.false_eq_true, if_false, List.countP_cons, ih hfind']
    · have hb : b = a := by
        rw [findById_cons, hc, if_pos rfl] at hfind
        injection hfind with hfind
      rw [show insertById (b :: rest) a' = a' :: rest by simp [insertById, hc]]
      rw [List.countP_cons, List.countP_cons, hp, hb]

theorem countP_default_zero_of_no_provider (l : List ProviderAccount) (pid : String)
    (h : (l.any fun b => b.providerId == pid) = false) :
    (l.countP fun x => x.providerId == pid && x.isDefault) = 0 := by
  rw [List.countP_eq_zero]
  intro x hx hpred
  rw [List.any_eq_false] at h
  exact h x hx (by simp_all)

/-! ## C3: effect of each operation on the invariant -/

theorem pickScan_accounts (s : ManagerState) (pid : String) (ranked : List Cand) :
    (pickScan s pid ranked).2.accounts = s.accounts := by
  unfold pickScan
  split
  · rfl
  · dsimp only
    split
    · split <;> rfl
    · rfl

theorem getAvailableAccount_accounts (now : Int) (s : ManagerState) (pid : String) :
    ((getAvailableAccount now s pid).2).accounts = s.accounts ∨
    ∃ oid acc, lookupA s.originalDefaults pid = some oid ∧
      findById s.accounts oid = some acc ∧
      ((getAvailableAccount now s pid).2).accounts
        = insertById s.accounts ((acc.hasQuotaM now).2) := by
  unfold getAvailableAccount
  cases hbe :
      ((s.accounts.filter fun a => a.providerId == pid && a.enabled).map (candOf now)).isEmpty
  case true =>
    left
    simp only [hbe, if_true]
  case false =>
    simp only [hbe, Bool.false_eq_true, if_false]
    split
    · rename_i oid hlk
      split
      · rename_i acc hfd
        right
        refine ⟨oid, acc, hlk, hfd, ?_⟩
        cases hq : (acc.hasQuotaM now).1
        · simp only [hq, Bool.false_eq_true, if_false]
          rw [pickScan_accounts]
        · simp only [hq, if_true]
      · left
        exact pickScan_accounts ..
    · left
      exact pickScan_accounts ..

theorem nodup_ids_insertById (s : ManagerState) (hnd : (s.accounts.map fun x => x.id).Nodup)
    (acct' : ProviderAccount) :
    ((insertById s.accounts acct').map fun x => x.id).Nodup := by
  rcases hany : (s.accounts.any fun b => b.id == acct'.id) with _ | _
  · rw [map_id_insertById_absent s.accounts acct' hany, List.nodup_append]
    refine ⟨by simpa using hnd, List.nodup_singleton _, ?_⟩
    intro x hx hx'
    simp only [List.mem_singleton] at hx'
    subst hx'
    rw [List.any_eq_false] at hany
    obtain ⟨b, hb, hbid⟩ := List.mem_map.mp hx
    exact hany b hb (by simp [hbid])
  · rw [map_id_insertById_present s.accounts acct' hany]
    exact hnd

theorem countP_default_insertById_le (s : ManagerState)
    (hcount : ∀ pid, defaultCount s pid ≤ 1) (acct' : ProviderAccount)
    (hzero : ∀ pid, (acct'.providerId == pid && acct'.isDefault) = true →
      (s.accounts.countP fun x => x.providerId == pid && x.isDefault) = 0) (pid : String) :
    ((insertById s.accounts acct').countP fun x => x.providerId == pid && x.isDefault) ≤ 1 := by
  refine le_trans (countP_insertById_le _ _ _) ?_
  rcases hpred : (acct'.providerId == pid && acct'.isDefault) with _ | _
  · have hc := hcount pid
    rw [defaultCount, ← List.countP_eq_length_filter] at hc
    simp only [hpred, Bool.false_eq_true, if_false]
    omega
  · rw [hzero pid hpred]
    simp only [hpred, if_true]
    omega

theorem goodState_add (s : ManagerState) (a : ProviderAccount) (ha : a.isDefault = false)
    (h : GoodState s) : GoodState (addAccount s a).2 := by
  obtain ⟨hnd, hcount⟩ := h
  rcases haF : (s.accounts.any fun b => b.providerId == a.providerId) with _ | _
  · -- isFirst = true: the incoming account is stored with is_default forced on
    have hstate : (addAccount s a).2
        = { s with accounts := insertById s.accounts { a with isDefault := true } } := by
      unfold addAccount
      rw [haF]
      rfl
    rw [hstate]
    refine ⟨nodup_ids_insertById s hnd _, fun pid => ?_⟩
    simp only [defaultCount]
    rw [← List.countP_eq_length_filter]
    refine countP_default_insertById_le s hcount _ (fun pid' hpred' => ?_) pid
    have hprov : a.providerId = pid' := by
      simp only [Bool.and_eq_true, beq_iff_eq] at hpred'
      exact hpred'.1
    subst hprov
    exact countP_default_zero_of_no_provider s.accounts _ haF
  · -- isFirst = false: the account is stored as-is, with is_default = false
    have hstate : (addAccount s a).2 = { s with accounts := insertById s.accounts a } := by
      unfold addAccount
      rw [haF]
      rfl
    rw [hstate]
    refine ⟨nodup_ids_insertById s hnd _, fun pid => ?_⟩
    simp only [defaultCount]
    rw [← List.countP_eq_length_filter]
    refine countP_default_insertById_le s hcount _ (fun pid' hpred' => ?_) pid
    rw [show (a.providerId == pid' && a.isDefault) = false by simp [ha]] at hpred'
    cases hpred'

theorem goodState_update (now : Int) (s : ManagerState) (aid : String) (u : AccountUpdate)
    (h : GoodState s) : GoodState (updateAccount now s aid u).2 := by
  obtain ⟨hnd, hcount⟩ := h
  cases hfd : findById s.accounts aid with
  | none =>
    have hstate : (updateAccount now s aid u).2 = s := by
      unfold updateAccount
      rw [hfd]
    rw [hstate]
    exact ⟨hnd, hcount⟩
  | some a =>
    have hstate : (updateAccount now s aid u).2
        = { s with accounts := insertById s.accounts (applyUpdate now a u) } := by
      unfold updateAccount
      rw [hfd]
    rw [hstate]
    have hkey := keyOf_applyUpdate now a u
    obtain ⟨hmem, haid, hany⟩ := findById_some_facts hfd
    refine ⟨nodup_ids_insertById s hnd _, fun pid => ?_⟩
    simp only [defaultCount]
    rw [← List.countP_eq_length_filter]
    have hf : findById s.accounts (applyUpdate now a u).id = some a := by
      rw [id_of_keyOf hkey, haid]
      exact hfd
    rw [countP_insertById_replace _ s.accounts a _ hf (defaultPred_of_keyOf hkey pid)]
    have hc := hcount pid
    rw [defaultCount, ← List.countP_eq_length_filter] at hc
    exact hc

theorem goodState_record (now : Int) (s : ManagerState) (aid : String) (tokens requests : Nat)
    (h : GoodState s) : GoodState (recordUsageMgr now s aid tokens requests) := by
  obtain ⟨hnd, hcount⟩ := h
  cases hfd : findById s.accounts aid with
  | none =>
    have hstate : recordUsageMgr now s aid tokens requests = s := by
      unfold recordUsageMgr
      rw [hfd]
    rw [hstate]
    exact ⟨hnd, hcount⟩
  | some a =>
    have hstate : recordUsageMgr now s aid tokens requests
        = { s with accounts := insertById s.accounts (a.recordUsage now tokens requests) } := by
      unfold recordUsageMgr
      rw [hfd]
    rw [hstate]
    have hkey := keyOf_recordUsage now tokens requests a
    obtain ⟨hmem, haid, hany⟩ := findById_some_facts hfd
    refine ⟨nodup_ids_insertById s hnd _, fun pid => ?_⟩
    simp only [defaultCount]
    rw [← List.countP_eq_length_filter]
    have hf : findById s.accounts (a.recordUsage now tokens requests).id = some a := by
      rw [id_of_keyOf hkey, haid]
      exact hfd
    rw [countP_insertById_replace _ s.accounts a _ hf (defaultPred_of_keyOf hkey pid)]
    have hc := hcount pid
    rw [defaultCount, ← List.countP_eq_length_filter] at hc
    exact hc

theorem goodState_setDef (s : ManagerState) (pid aid : String) (h : GoodState s) :
    GoodState (setDefault s pid aid) := by
  obtain ⟨hnd, hcount⟩ := h
  refine ⟨?_, fun pid' => ?_⟩
  · simp only [setDefault]
    rw [List.map_map]
    have : ((fun x : ProviderAccount => x.id) ∘ fun a =>
        if a.providerId == pid then { a with isDefault := a.id == aid } else a)
          = fun a : ProviderAccount => a.id := by
      funext x
      by_cases hc : (x.providerId == pid) = true <;> simp [hc, Function.comp]
    rw [this]
    exact hnd
  · simp only [defaultCount, setDefault]
    rw [← List.countP_eq_length_filter, List.countP_map]
    by_cases hp : pid' = pid
    · subst hp
      have hpt : ∀ x ∈ s.accounts,
          ((fun x : ProviderAccount => x.providerId == pid' && x.isDefault) ∘ fun a =>
            if a.providerId == pid' then { a with isDefault := a.id == aid } else a) x
          = (x.providerId == pid' && x.id == aid) := by
        intro x _
        by_cases hc : (x.providerId == pid') = true <;> simp [hc, Function.comp]
      rw [List.countP_congr (fun x hx => by rw [hpt x hx])]
      refine le_trans (List.countP_mono_left (q := fun x => x.id == aid) ?_) ?_
      · intro x _ hpx
        simp only [Bool.and_eq_true] at hpx
        exact hpx.2
      · have hcc := List.nodup_iff_count_le_one.mp hnd aid
        rw [List.count_eq_countP, List.countP_map] at hcc
        exact le_trans (le_of_eq (List.countP_congr (fun x _ => by simp [Function.comp]))) hcc
    · have hpt : ∀ x ∈ s.accounts,
          ((fun x : ProviderAccount => x.providerId == pid' && x.isDefault) ∘ fun a =>
            if a.providerId == pid then { a with isDefault := a.id == aid } else a) x
          = (x.providerId == pid' && x.isDefault) := by
        intro x _
        by_cases hc : (x.providerId == pid) = true
        · have hx1 : x.providerId = pid := by simpa using hc
          have hx2 : ¬(x.providerId = pid') = true := by simp [hx1]; exact fun hx => hp hx.symm
          simp only [Function.comp_apply, hc, if_true]
          have : (x.providerId == pid') = false := by
            rw [beq_eq_false_iff_ne]
            intro hx
            exact hp (hx1 ▸ hx).symm
          simp [this]
        · simp [hc, Function.comp]
      rw [List.countP_congr (fun x hx => by rw [hpt x hx])]
      have hc := hcount pid'
      rw [defaultCount, ← List.countP_eq_length_filter] at hc
      exact hc

theorem goodState_del (s : ManagerState) (aid : String) (h : GoodState s) :
    GoodState (deleteAccount s aid).2 := by
  obtain ⟨hnd, hcount⟩ := h
  refine ⟨?_, fun pid => ?_⟩
  · simp only [deleteAccount]
    exact ((List.filter_sublist s.accounts).map _).nodup hnd
  · simp only [defaultCount, deleteAccount]
    rw [← List.countP_eq_length_filter]
    refine le_trans ((List.filter_sublist s.accounts).countP_le _) ?_
    have hc := hcount pid
    rw [defaultCount, ← List.countP_eq_length_filter] at hc
    exact hc

theorem goodState_pick (now : Int) (s : ManagerState) (pid : String) (h : GoodState s) :
    GoodState (getAvailableAccount now s pid).2 := by
  obtain ⟨hnd, hcount⟩ := h
  rcases getAvailableAccount_accounts now s pid with heq | ⟨oid, acc, hlk, hfd, heq⟩
  · refine ⟨?_, fun pid' => ?_⟩
    · rw [heq]
      exact hnd
    · simp only [defaultCount]
      rw [heq, ← List.countP_eq_length_filter]
      have hc := hcount pid'
      rw [defaultCount, ← List.countP_eq_length_filter] at hc
      exact hc
  · have hkey := keyOf_hasQuotaM now acc
    obtain ⟨hmem, haid, hany⟩ := findById_some_facts hfd
    refine ⟨?_, fun pid' => ?_⟩
    · rw [heq]
      exact nodup_ids_insertById s hnd _
    · simp only [defaultCount]
      rw [heq, ← List.countP_eq_length_filter]
      have hf : findById s.accounts ((acc.hasQuotaM now).2).id = some acc := by
        rw [id_of_keyOf hkey, haid]
        exact hfd
      rw [countP_insertById_replace _ s.accounts acc _ hf (defaultPred_of_keyOf hkey pid')]
      have hc := hcount pid'
      rw [defaultCount, ← List.countP_eq_length_filter] at hc
      exact hc

/-! ## C3 -/

/-- C3 counterexample: from the empty registry, adding a first (clean)
account of provider `"p"` and then a second whose `is_default` flag is
already set yields a reachable state with TWO default accounts for `"p"`:
`add_account` preserves the incoming flag on non-first accounts. -/
theorem c3_two_defaults_counterexample :
    ReachableVia (fun _ => True) c3BadState ∧ defaultCount c3BadState "p" = 2 := by
  constructor
  · exact ReachableVia.step (ReachableVia.step ReachableVia.init trivial) trivial
  · rfl

/-- C3 (amended): provided every account handed to `add_account` arrives with
`is_default = false` (as `ProviderAccount::new` constructs them), every state
reachable from the empty registry by `add_account`, `update_account`,
`set_default`, `delete_account`, `get_available_account` and `record_usage`
has unique account ids and at most one default account per provider; and the
first account added for a provider becomes its default automatically. -/
theorem c3_default_invariant :
    (∀ s, ReachableVia CleanOp s → GoodState s) ∧
    (∀ (s : ManagerState) (a : ProviderAccount),
      (∀ b ∈ s.accounts, ¬(b.providerId = a.providerId)) →
      (addAccount s a).1 = Except.ok { a with isDefault := true }) := by
  constructor
  · intro s hreach
    induction hreach with
    | init =>
      refine ⟨by simp [emptyManager], fun pid => ?_⟩
      simp [defaultCount, emptyManager]
    | step hr hop ih =>
      rename_i s' op
      cases op with
      | add a => exact goodState_add s' a hop ih
      | update now aid u => exact goodState_update now s' aid u ih
      | setDef pid aid => exact goodState_setDef s' pid aid ih
      | del aid => exact goodState_del s' aid ih
      | pick now pid => exact goodState_pick now s' pid ih
      | record now aid tokens requests => exact goodState_record now s' aid tokens requests ih
  · intro s a hno
    have haF : (s.accounts.any fun b => b.providerId == a.providerId) = false := by
      rw [List.any_eq_false]
      intro b hb
      simp only [beq_iff_eq]
      exact hno b hb
    unfold addAccount
    rw [haF]
    rfl

/-- C3 witness: `c3_default_invariant` at the one-step clean state and at the
empty registry. -/
theorem c3_default_invariant_witness :
    GoodState c3WitState ∧
    (addAccount emptyManager c3AcctA).1 = Except.ok { c3AcctA with isDefault := true } :=
  ⟨c3_default_invariant.1 c3WitState (ReachableVia.step ReachableVia.init rfl),
   c3_default_invariant.2 emptyManager c3AcctA (by simp [emptyManager])⟩

end Synapse
